import Mathlib

/-
Verification development for the VRM animation core (motion catalog,
playback scheduler, retargeting engine, procedural generator, blink
controller, interaction subsystem).  Each section shallowly embeds the
functions of one source file over rational arithmetic; machine floats are
modelled as exact rationals, transcendental kernels (euler-to-quaternion
conversion, acos) are abstracted as parameters where their values are
irrelevant to the property at hand, and vector-length comparisons against a
threshold are carried out on squared norms (equivalent, both sides being
nonnegative).
-/

set_option maxHeartbeats 1600000

/-! ## Motion catalog (animation-manager: MotionDef, MotionHistory) -/

structure MotionDef where
  id : String
  category : String
  playMode : String
  fadeDuration : ℚ
  moodTags : List String
  altGroup : String
  keywords : List String
deriving DecidableEq, Repr

def MAX_HISTORY : ℕ := 10

def MAX_SAME_MOTION_USES : ℕ := 2

/-- Math.max on rationals, written so the kernel can evaluate it. -/
def qmax (a b : ℚ) : ℚ := if a ≤ b then b else a

/-- Math.min on rationals. -/
def qmin (a b : ℚ) : ℚ := if a ≤ b then a else b

/-- Math.abs on rationals. -/
def qabs (a : ℚ) : ℚ := if a < 0 then -a else a

/-- Motion history tracker: ring buffer of recent plays plus per-alt-group
usage queues, as in the MotionHistory class. -/
structure MotionHistory where
  history : List String
  altGroupUsage : List (String × List String)
deriving DecidableEq, Repr

namespace MotionHistory

def empty : MotionHistory := ⟨[], []⟩

def lookupGroup (h : MotionHistory) (g : String) : List String :=
  match h.altGroupUsage.find? (fun p => p.1 = g) with
  | some p => p.2
  | none => []

def setGroup (h : MotionHistory) (g : String) (l : List String) : MotionHistory :=
  if h.altGroupUsage.any (fun p => p.1 = g) then
    ⟨h.history, h.altGroupUsage.map (fun p => if p.1 = g then (g, l) else p)⟩
  else
    ⟨h.history, h.altGroupUsage ++ [(g, l)]⟩

/-- record(motionId, altGroup): push, trim history to MAX_HISTORY, and push
into the alt-group queue trimmed to 10. -/
def record (h : MotionHistory) (motionId altGroup : String) : MotionHistory :=
  let hist := h.history ++ [motionId]
  let hist := if MAX_HISTORY < hist.length then hist.tail else hist
  let groupList := h.lookupGroup altGroup ++ [motionId]
  let groupList := if 10 < groupList.length then groupList.tail else groupList
  setGroup ⟨hist, h.altGroupUsage⟩ altGroup groupList

/-- recentCount(motionId): occurrences in the ring buffer. -/
def recentCount (h : MotionHistory) (motionId : String) : ℕ :=
  (h.history.filter (fun i => i = motionId)).length

/-- The weight the pickWithRotation loop gives one pool member:
max(1, MAX_SAME_MOTION_USES + 1 - count), times 1.5 for the preferred
alternation group. -/
def weightOf (h : MotionHistory) (preferAltGroup : Option String) (m : MotionDef) : ℚ :=
  let count : ℕ := h.recentCount m.id
  let w : ℚ := qmax 1 ((MAX_SAME_MOTION_USES : ℚ) + 1 - count)
  match preferAltGroup with
  | some g => if m.altGroup = g then w * (3 / 2) else w
  | none => w

/-- The selection loop: r -= weights[i]; if r <= 0 return pool[i]. -/
def drawWeighted : List MotionDef → List ℚ → ℚ → Option MotionDef
  | m :: ms, w :: ws, r => if r - w ≤ 0 then some m else drawWeighted ms ws (r - w)
  | _, _, _ => none

/-- pickWithRotation(candidates, preferAltGroup), with the scaled random
draw r = Math.random() * totalWeight passed in explicitly.  Falling off the
end of the loop returns pool[pool.length - 1]. -/
def pickWithRotation (h : MotionHistory) (candidates : List MotionDef)
    (preferAltGroup : Option String) (r : ℚ) : Option MotionDef :=
  if candidates = [] then none else
  let eligible := candidates.filter (fun m => h.recentCount m.id < MAX_SAME_MOTION_USES)
  let pool := if eligible.length > 0 then eligible else candidates
  let weights := pool.map (h.weightOf preferAltGroup)
  match drawWeighted pool weights r with
  | some m => some m
  | none => pool.getLast?

/-- getNextAlt(altGroup): round-robin alternate pick; the random array index
Math.floor(Math.random() * len) is modelled as rIdx % len. -/
def getNextAlt (lib : List MotionDef) (h : MotionHistory) (altGroup : String)
    (rIdx : ℕ) : Option String :=
  let groupMotions := lib.filter (fun m => m.altGroup = altGroup)
  if groupMotions.length ≤ 1 then groupMotions.head?.map (·.id) else
  let used := h.lookupGroup altGroup
  let lastUsed := used.getLast?
  let candidates := groupMotions.filter
    (fun m => !(some m.id == lastUsed) && decide (h.recentCount m.id < MAX_SAME_MOTION_USES))
  if candidates.length > 0 then
    (candidates.get? (rIdx % candidates.length)).map (·.id)
  else
    let any := groupMotions.filter (fun m => !(some m.id == lastUsed))
    if any.length > 0 then (any.get? (rIdx % any.length)).map (·.id)
    else (groupMotions.get? 0).map (·.id)

end MotionHistory

/-! ## Specification-side selection policy (for the refinement check)

These definitions follow the spec sentence for the anti-repetition policy:
eligibility = fewer than 2 uses in the 10 most recent recorded plays, weight
= max(1, 3 - recentUseCount), 1.5x for a preferred alternation group. -/

/-- The 10 most recent entries of a full play log. -/
def lastTenPlays (plays : List String) : List String :=
  plays.drop (plays.length - 10)

/-- How often an id occurs among the 10 most recent recorded plays. -/
def specRecentUse (plays : List String) (id : String) : ℕ :=
  ((lastTenPlays plays).filter (fun i => i = id)).length

/-- Candidates used fewer than 2 times in the last 10 plays. -/
def specEligible (plays : List String) (candidates : List MotionDef) : List MotionDef :=
  candidates.filter (fun m => specRecentUse plays m.id < 2)

/-- The draw pool: the eligible candidates, or all candidates when none is
eligible. -/
def specPool (plays : List String) (candidates : List MotionDef) : List MotionDef :=
  if specEligible plays candidates = [] then candidates else specEligible plays candidates

/-- The spec's weight: max(1, 3 - recentUseCount), multiplied by 1.5 when a
preferred alternation group is supplied and the candidate belongs to it. -/
def specWeight (plays : List String) (preferAltGroup : Option String) (m : MotionDef) : ℚ :=
  qmax 1 (3 - (specRecentUse plays m.id : ℚ)) *
    (match preferAltGroup with
     | some g => if m.altGroup = g then 3 / 2 else 1
     | none => 1)

/-- One step of the history ring buffer: append and trim to MAX_HISTORY. -/
def trimTen (l : List String) (x : String) : List String :=
  let l2 := l ++ [x]
  if MAX_HISTORY < l2.length then l2.tail else l2

/-- The MotionHistory obtained by recording a full play log (id, altGroup)
into an empty tracker. -/
def historyOfPlays (plays : List (String × String)) : MotionHistory :=
  plays.foldl (fun h p => h.record p.1 p.2) .empty

/-! ## Idle-selection scheduler simulation (playEmotionIdle)

The per-selection step of AnimationManager.playEmotionIdle for a fixed
emotion "neutral", over a motion library in which every clip is available
(clip loading always succeeds, as with procedural fallbacks present).  The
random draw of pickWithRotation and the random alternate index of getNextAlt
are explicit inputs.  The trace field logs each motion id at the moment
playMotion records it, so that sliding-window properties can be stated over
the full sequence of plays. -/

structure SchedState where
  hist : MotionHistory
  activeLoopMotionId : Option String
  trace : List String
deriving Repr

/-- playMotion via playMotionWithFallback for a loop motion whose clip is
available iff the oracle says so: records the id into history (when the
definition exists and a clip was produced) and makes it the active loop. -/
def playLoopMotionSim (lib : List MotionDef) (availableClip : String → Bool)
    (st : SchedState) (motionId : String) : Bool × SchedState :=
  match lib.find? (fun m => m.id = motionId) with
  | none =>
    if availableClip motionId then (true, st) else (true, st)
  | some d =>
    if availableClip motionId then
      (true,
        ⟨st.hist.record motionId d.altGroup,
         if d.playMode = "loop" then some motionId else st.activeLoopMotionId,
         st.trace ++ [motionId]⟩)
    else (true, st)

/-- One playEmotionIdle("neutral") selection: mood filter, pool fallback,
pickWithRotation, the same-as-active alternate branch via getNextAlt, and
the reset-to-fallback-idle path. -/
def playEmotionIdleSim (lib : List MotionDef) (availableClip : String → Bool)
    (st : SchedState) (r : ℚ) (rIdx : ℕ) : SchedState :=
  let tags : List String := ["neutral"]
  let candidates := lib.filter
    (fun m => m.category = "idle" && m.moodTags.any (fun t => tags.contains t))
  let pool := if candidates.length > 0 then candidates
              else lib.filter (fun m => m.category = "idle")
  if pool = [] then { st with activeLoopMotionId := some "__fallback_idle" } else
  let pick := st.hist.pickWithRotation pool none r
  match pick with
  | none =>
    match lib.find? (fun m => some m.id = st.activeLoopMotionId) with
    | some currentDef =>
      match MotionHistory.getNextAlt lib st.hist currentDef.altGroup rIdx with
      | some altId =>
        if some altId ≠ st.activeLoopMotionId then
          (playLoopMotionSim lib availableClip st altId).2
        else st
      | none => st
    | none => st
  | some p =>
    if some p.id = st.activeLoopMotionId then
      match lib.find? (fun m => some m.id = st.activeLoopMotionId) with
      | some currentDef =>
        match MotionHistory.getNextAlt lib st.hist currentDef.altGroup rIdx with
        | some altId =>
          if some altId ≠ st.activeLoopMotionId then
            (playLoopMotionSim lib availableClip st altId).2
          else st
        | none => st
      | none => st
    else
      let res := playLoopMotionSim lib availableClip st p.id
      if res.1 then res.2 else { res.2 with activeLoopMotionId := some "__fallback_idle" }

/-- Iterate consecutive idle selections over a list of random draws. -/
def idleRun (lib : List MotionDef) (availableClip : String → Bool)
    (st : SchedState) (rs : List (ℚ × ℕ)) : SchedState :=
  rs.foldl (fun s rv => playEmotionIdleSim lib availableClip s rv.1 rv.2) st

/-- A 3-clip idle pool: three looped neutral idles, each its own alternation
group (the default altGroup = id). -/
def idleA : MotionDef := ⟨"idle_a", "idle", "loop", 1 / 2, ["neutral"], "idle_a", []⟩

def idleB : MotionDef := ⟨"idle_b", "idle", "loop", 1 / 2, ["neutral"], "idle_b", []⟩

def idleC : MotionDef := ⟨"idle_c", "idle", "loop", 1 / 2, ["neutral"], "idle_c", []⟩

def lib3 : List MotionDef := [idleA, idleB, idleC]

def schedInit : SchedState := ⟨MotionHistory.empty, some "__fallback_idle", []⟩

/-- Random draws realizing 30 consecutive idle selections in which clip
idle_a ends up played 3 (in fact 4) times inside one 10-play window. -/
def badDraws : List (ℚ × ℕ) :=
  [(0, 0), (3, 0), (0, 0), (3, 0), (0, 0), (0, 0), (0, 0), (3 / 2, 0), (5 / 2, 0), (0, 0)]
    ++ List.replicate 20 (0, 0)

/-- Whether some clip is played 3 or more times within some sliding window
of 10 consecutive plays of a trace. -/
def windowViolation (trace : List String) : Bool :=
  (List.range trace.length).any (fun i =>
    trace.any (fun id => 3 ≤ (((trace.drop i).take 10).filter (fun j => j = id)).length))

/-! ## Animation clips, mixer actions, playback scheduler
(animation-manager: loadMotion / playMotion / playMotionWithFallback /
playLoop / playOneShot / onAnimationFinished).

Keyframe tracks carry flattened value arrays, as the underlying engine
does.  The mixer's action registry is a total function from clip name to
action state (clipAction gets-or-creates; a never-touched name holds a
fresh action). -/

structure Track where
  name : String
  times : List ℚ
  values : List ℚ
deriving DecidableEq, Repr

structure Clip where
  name : String
  duration : ℚ
  tracks : List Track
deriving DecidableEq, Repr

structure ActionState where
  effectiveWeight : ℚ
  effectiveTimeScale : ℚ
  loopOnce : Bool
  clampWhenFinished : Bool
  running : Bool
  fadingOut : Option ℚ
  fadingIn : Option ℚ

/-- A freshly created mixer action. -/
def freshAction : ActionState :=
  ⟨1, 1, false, false, false, none, none⟩

/-- reset(): clears scheduled fading and stops interpolants; weight and
time-scale settings survive until set again. -/
def ActionState.reset (a : ActionState) : ActionState :=
  { a with fadingOut := none, fadingIn := none }


/-- The playback scheduler's state: the bound model and mixer, the mixer's
action registry (a total function from clip name to action state; clipAction
gets-or-creates, so a never-touched name holds a fresh action), the active
loop / one-shot slots, the catalog, the clip cache and the motion history. -/
structure AnimationManager where
  vrmBound : Bool
  mixerBound : Bool
  actions : String → ActionState
  activeLoopActionId : Option String
  activeLoopMotionId : Option String
  activeShotActionId : Option String
  library : List MotionDef
  clipCache : List (String × Clip)
  motionHistory : MotionHistory

def AnimationManager.updateAction (st : AnimationManager) (name : String)
    (f : ActionState → ActionState) : AnimationManager :=
  { st with actions := fun n => if n = name then f (st.actions n) else st.actions n }

/-- loadMotion(motionId): cache hit, else authored asset (the oracle
assetLoad returns none when the fetch or parse threw; the exception is
caught at this boundary), else procedural fallback, else none. -/
def loadMotion (assetLoad procedural : String → Option Clip)
    (st : AnimationManager) (motionId : String) : Option Clip × AnimationManager :=
  if st.vrmBound = false ∨ st.mixerBound = false then (none, st) else
  match st.clipCache.find? (fun p => p.1 = motionId) with
  | some p => (some p.2, st)
  | none =>
    let fromAsset : Option Clip :=
      match st.library.find? (fun m => m.id = motionId) with
      | some _ => assetLoad motionId
      | none => none
    match fromAsset with
    | some clip => (some clip, { st with clipCache := (motionId, clip) :: st.clipCache })
    | none =>
      match procedural motionId with
      | some clip => (some clip, { st with clipCache := (motionId, clip) :: st.clipCache })
      | none => (none, st)

/-- playLoop(clip, motionId, fadeDuration): no-op when the id is already the
running active loop; otherwise cross-fade from the current loop action (or
plain fade-in when there is none), then take over the loop slot. -/
def playLoop (st : AnimationManager) (clip : Clip) (motionId : String)
    (fadeDuration : ℚ) : AnimationManager :=
  if st.mixerBound = false then st else
  if st.activeLoopMotionId = some motionId ∧
      (∃ prev, st.activeLoopActionId = some prev ∧ (st.actions prev).running) then st else
  let st1 := st.updateAction clip.name
    (fun a => { a with loopOnce := false, clampWhenFinished := false })
  let st2 :=
    match st1.activeLoopActionId with
    | some prev =>
      if prev ≠ clip.name then
        let sA := st1.updateAction clip.name (fun a =>
          { a.reset with effectiveTimeScale := 1, effectiveWeight := 1 })
        let sB := sA.updateAction prev (fun a => { a with fadingOut := some fadeDuration })
        sB.updateAction clip.name (fun a =>
          { a with fadingIn := some fadeDuration, running := true })
      else
        st1.updateAction clip.name (fun a =>
          { a.reset with fadingIn := some fadeDuration, running := true })
    | none =>
      st1.updateAction clip.name (fun a =>
        { a.reset with fadingIn := some fadeDuration, running := true })
  { st2 with activeLoopActionId := some clip.name, activeLoopMotionId := some motionId }

/-- playOneShot(clip, fadeDuration): fade out the previous one-shot at half
the fade, start the new one at full weight, drop the active loop's
effective weight to the 0.2 floor, and take over the one-shot slot. -/
def playOneShot (st : AnimationManager) (clip : Clip) (fadeDuration : ℚ) : AnimationManager :=
  if st.mixerBound = false then st else
  let st1 :=
    match st.activeShotActionId with
    | some prev => st.updateAction prev
        (fun a => { a with fadingOut := some (fadeDuration * (1 / 2)) })
    | none => st
  let st2 := st1.updateAction clip.name (fun a =>
    { a.reset with
      loopOnce := true, clampWhenFinished := true
      effectiveTimeScale := 1, effectiveWeight := 1 })
  let st3 :=
    match st2.activeLoopActionId with
    | some l => st2.updateAction l (fun a => { a with effectiveWeight := 1 / 5 })
    | none => st2
  let st4 := st3.updateAction clip.name (fun a =>
    { a with fadingIn := some fadeDuration, running := true })
  { st4 with activeShotActionId := some clip.name }

/-- The mixer finished-event handler: when the finished action is the
active one-shot, fade it out over 0.4s, clear the slot and restore the
loop's weight to 1; otherwise do nothing. -/
def onAnimationFinished (st : AnimationManager) (finished : String) : AnimationManager :=
  if st.mixerBound = false then st else
  if st.activeShotActionId = some finished then
    let st1 := st.updateAction finished
      (fun a => { a with fadingOut := some (2 / 5), running := false })
    let st2 := { st1 with activeShotActionId := none }
    match st2.activeLoopActionId with
    | some l => st2.updateAction l (fun a => { a with effectiveWeight := 1 })
    | none => st2
  else st

/-- playMotion(motionId): resolve the definition, load with fallback,
record history, dispatch per play mode.  The Except models the function's
exception channel: the proof obligation is that it is never used. -/
def playMotion (assetLoad procedural : String → Option Clip)
    (st : AnimationManager) (motionId : String) : Except String AnimationManager :=
  if st.mixerBound = false then .ok st else
  let mdef := st.library.find? (fun m => m.id = motionId)
  let fadeDuration := match mdef with | some d => d.fadeDuration | none => 1 / 2
  let playMode := match mdef with | some d => d.playMode | none => "once"
  let loaded := loadMotion assetLoad procedural st motionId
  match loaded.1 with
  | none => .ok loaded.2
  | some clip =>
    let st1 :=
      match mdef with
      | some d =>
        { loaded.2 with motionHistory := loaded.2.motionHistory.record motionId d.altGroup }
      | none => loaded.2
    if playMode = "loop" then .ok (playLoop st1 clip motionId fadeDuration)
    else .ok (playOneShot st1 clip fadeDuration)

/-- playMotionWithFallback(motionId): false when no mixer is bound; else
try playMotion and report whether it threw. -/
def playMotionWithFallback (assetLoad procedural : String → Option Clip)
    (st : AnimationManager) (motionId : String) : Bool × AnimationManager :=
  if st.mixerBound = false then (false, st) else
  match playMotion assetLoad procedural st motionId with
  | .ok st1 => (true, st1)
  | .error _ => (false, st)

/-- A bound manager with nothing loaded: empty library, empty cache, a
fresh mixer. -/
def boundManager : AnimationManager :=
  ⟨true, true, fun _ => freshAction, none, none, none, [], [], MotionHistory.empty⟩

/-- An oracle under which no motion id resolves to any clip. -/
def noClips : String → Option Clip := fun _ => none

/-! ## Quaternions and vectors over the rationals -/

structure Quat where
  x : ℚ
  y : ℚ
  z : ℚ
  w : ℚ
deriving DecidableEq, Repr

/-- Hamilton product, component order as in the engine's
multiplyQuaternions. -/
def Quat.mul (a b : Quat) : Quat :=
  ⟨a.x * b.w + a.w * b.x + a.y * b.z - a.z * b.y,
   a.y * b.w + a.w * b.y + a.z * b.x - a.x * b.z,
   a.z * b.w + a.w * b.z + a.x * b.y - a.y * b.x,
   a.w * b.w - a.x * b.x - a.y * b.y - a.z * b.z⟩

def Quat.one : Quat := ⟨0, 0, 0, 1⟩

/-- invert() on a unit quaternion: the conjugate. -/
def Quat.conj (a : Quat) : Quat := ⟨-a.x, -a.y, -a.z, a.w⟩

structure Vec3 where
  x : ℚ
  y : ℚ
  z : ℚ
deriving DecidableEq, Repr

def Vec3.zero : Vec3 := ⟨0, 0, 0⟩

def Vec3.add (a b : Vec3) : Vec3 := ⟨a.x + b.x, a.y + b.y, a.z + b.z⟩

def Vec3.scale (c : ℚ) (a : Vec3) : Vec3 := ⟨c * a.x, c * a.y, c * a.z⟩

def Vec3.normSq (a : Vec3) : ℚ := a.x * a.x + a.y * a.y + a.z * a.z

def clampQ (v lo hi : ℚ) : ℚ := qmax lo (qmin v hi)

def Vec3.clampScalar (a : Vec3) (lo hi : ℚ) : Vec3 :=
  ⟨clampQ a.x lo hi, clampQ a.y lo hi, clampQ a.z lo hi⟩

/-! ## Retargeting engine (mixamo-retarget: loadMixamoAnimation)

A keyframe track is addressed by node name and property name (the source
splits "node.property"); rotation values are quaternion lists, position
values vector lists.  The source skeleton's world rest rotations (what
getWorldQuaternion reads off the loaded asset) are supplied as oracles:
none for a node the asset does not contain.  The arm-spread bias
quaternions (setFromEuler around Z by the bias in radians) are supplied
precomputed; they are present exactly when the bias magnitude exceeds
0.001 rad. -/

inductive KeyTrack
  | rot (nodeName propertyName : String) (times : List ℚ) (values : List Quat)
  | pos (nodeName propertyName : String) (times : List ℚ) (values : List Vec3)
deriving DecidableEq, Repr

structure BoneNode where
  name : String
  position : Vec3
deriving DecidableEq, Repr

/-- A loaded avatar: canonical humanoid bone name to scene node (none when
the rig lacks the bone). -/
structure VRMAvatar where
  bones : String → Option BoneNode

def MIXAMO_VRM_RIG_MAP : List (String × String) :=
  [("mixamorigHips", "hips"),
   ("mixamorigSpine", "spine"),
   ("mixamorigSpine1", "chest"),
   ("mixamorigSpine2", "upperChest"),
   ("mixamorigNeck", "neck"),
   ("mixamorigHead", "head"),
   ("mixamorigLeftShoulder", "leftShoulder"),
   ("mixamorigLeftArm", "leftUpperArm"),
   ("mixamorigLeftForeArm", "leftLowerArm"),
   ("mixamorigLeftHand", "leftHand"),
   ("mixamorigLeftHandThumb1", "leftThumbMetacarpal"),
   ("mixamorigLeftHandThumb2", "leftThumbProximal"),
   ("mixamorigLeftHandThumb3", "leftThumbDistal"),
   ("mixamorigLeftHandIndex1", "leftIndexProximal"),
   ("mixamorigLeftHandIndex2", "leftIndexIntermediate"),
   ("mixamorigLeftHandIndex3", "leftIndexDistal"),
   ("mixamorigLeftHandMiddle1", "leftMiddleProximal"),
   ("mixamorigLeftHandMiddle2", "leftMiddleIntermediate"),
   ("mixamorigLeftHandMiddle3", "leftMiddleDistal"),
   ("mixamorigLeftHandRing1", "leftRingProximal"),
   ("mixamorigLeftHandRing2", "leftRingIntermediate"),
   ("mixamorigLeftHandRing3", "leftRingDistal"),
   ("mixamorigLeftHandPinky1", "leftLittleProximal"),
   ("mixamorigLeftHandPinky2", "leftLittleIntermediate"),
   ("mixamorigLeftHandPinky3", "leftLittleDistal"),
   ("mixamorigRightShoulder", "rightShoulder"),
   ("mixamorigRightArm", "rightUpperArm"),
   ("mixamorigRightForeArm", "rightLowerArm"),
   ("mixamorigRightHand", "rightHand"),
   ("mixamorigRightHandThumb1", "rightThumbMetacarpal"),
   ("mixamorigRightHandThumb2", "rightThumbProximal"),
   ("mixamorigRightHandThumb3", "rightThumbDistal"),
   ("mixamorigRightHandIndex1", "rightIndexProximal"),
   ("mixamorigRightHandIndex2", "rightIndexIntermediate"),
   ("mixamorigRightHandIndex3", "rightIndexDistal"),
   ("mixamorigRightHandMiddle1", "rightMiddleProximal"),
   ("mixamorigRightHandMiddle2", "rightMiddleIntermediate"),
   ("mixamorigRightHandMiddle3", "rightMiddleDistal"),
   ("mixamorigRightHandRing1", "rightRingProximal"),
   ("mixamorigRightHandRing2", "rightRingIntermediate"),
   ("mixamorigRightHandRing3", "rightRingDistal"),
   ("mixamorigRightHandPinky1", "rightLittleProximal"),
   ("mixamorigRightHandPinky2", "rightLittleIntermediate"),
   ("mixamorigRightHandPinky3", "rightLittleDistal"),
   ("mixamorigLeftUpLeg", "leftUpperLeg"),
   ("mixamorigLeftLeg", "leftLowerLeg"),
   ("mixamorigLeftFoot", "leftFoot"),
   ("mixamorigLeftToeBase", "leftToes"),
   ("mixamorigRightUpLeg", "rightUpperLeg"),
   ("mixamorigRightLeg", "rightLowerLeg"),
   ("mixamorigRightFoot", "rightFoot"),
   ("mixamorigRightToeBase", "rightToes")]

/-- The arm-spread bias quaternions: only the two upper-arm bones carry
one, and only when the bias is active (|bias radians| > 0.001). -/
def mkArmBiasQuats (biasActive : Bool) (biasLeft biasRight : Quat) :
    String → Option Quat := fun vrmBoneName =>
  if biasActive then
    if vrmBoneName = "leftUpperArm" then some biasLeft
    else if vrmBoneName = "rightUpperArm" then some biasRight
    else none
  else none

/-- One rotation keyframe: premultiply the parent rest world rotation,
multiply the inverted source rest world rotation, apply the VRM0 axis
flip, then premultiply the arm-spread bias when present. -/
def retargetFrame (parentRestWorldRotation restRotationInverse : Quat)
    (isVRM0 : Bool) (bias : Option Quat) (q : Quat) : Quat :=
  let q1 := (parentRestWorldRotation.mul q).mul restRotationInverse
  let q2 : Quat := if isVRM0 then ⟨-q1.x, q1.y, -q1.z, q1.w⟩ else q1
  match bias with
  | some b => b.mul q2
  | none => q2

/-- One position keyframe (hips): scale by the hip-height ratio, with the
VRM0 sign flips on x and z. -/
def retargetPosition (isVRM0 : Bool) (hipsPositionScale : ℚ) (v : Vec3) : Vec3 :=
  if isVRM0 then
    ⟨-v.x * hipsPositionScale, v.y * hipsPositionScale, -v.z * hipsPositionScale⟩
  else
    ⟨v.x * hipsPositionScale, v.y * hipsPositionScale, v.z * hipsPositionScale⟩

/-- The canonical humanoid bone name the rig map assigns a source node. -/
def rigLookup (nodeName : String) : Option String :=
  (MIXAMO_VRM_RIG_MAP.find? (fun p => p.1 = nodeName)).map Prod.snd

/-- loadMixamoAnimation, track loop: look the node up in the rig map, skip
unmapped names, skip canonical bones the avatar lacks, skip nodes the
asset lacks, then rewrite every keyframe. -/
def loadMixamoAnimation (vrm : VRMAvatar) (isVRM0 : Bool)
    (armBiasQuats : String → Option Quat)
    (srcRestWorld : String → Option Quat) (srcParentRestWorld : String → Quat)
    (hipsPositionScale : ℚ) (sourceTracks : List KeyTrack) : List KeyTrack :=
  sourceTracks.filterMap (fun t =>
    match t with
    | .rot nodeName propertyName times values =>
      match rigLookup nodeName with
      | none => none
      | some vrmBoneName =>
        match vrm.bones vrmBoneName with
        | none => none
        | some vrmNode =>
          match srcRestWorld nodeName with
          | none => none
          | some restWorld =>
            some (.rot vrmNode.name propertyName times
              (values.map (retargetFrame (srcParentRestWorld nodeName) restWorld.conj
                isVRM0 (armBiasQuats vrmBoneName))))
    | .pos nodeName propertyName times values =>
      match rigLookup nodeName with
      | none => none
      | some vrmBoneName =>
        match vrm.bones vrmBoneName with
        | none => none
        | some vrmNode =>
          match srcRestWorld nodeName with
          | none => none
          | some _ =>
            some (.pos vrmNode.name propertyName times
              (values.map (retargetPosition isVRM0 hipsPositionScale))))

/-! ## Two-bone IK core (ArmDragIK.solveTwoBoneIK)

The law-of-cosines elbow computation with the reachability clamps; the
solved elbow angle is acos of this value, so the angle is NaN-free exactly
when the value stays in [-1, 1]. -/

/-- Target distance clamped into the code's reachable range:
min(dist, 0.98 * totalLen) then max with |upperLen - lowerLen| + 0.01. -/
def clampedTargetDist (upperLen lowerLen targetDistRaw : ℚ) : ℚ :=
  let totalLen := upperLen + lowerLen
  let d1 := qmin targetDistRaw (totalLen * (49 / 50))
  qmax d1 (qabs (upperLen - lowerLen) + 1 / 100)

/-- The raw law-of-cosines argument. -/
def lawOfCosinesArg (upperLen lowerLen targetDist : ℚ) : ℚ :=
  (upperLen * upperLen + lowerLen * lowerLen - targetDist * targetDist)
    / (2 * upperLen * lowerLen)

/-- The clamped cosine whose acos the solver takes as the elbow angle. -/
def solveElbowCos (upperLen lowerLen targetDistRaw : ℚ) : ℚ :=
  clampQ (lawOfCosinesArg upperLen lowerLen
    (clampedTargetDist upperLen lowerLen targetDistRaw)) (-1) 1

/-! ## Blink state machine (EmoteController.updateBlink /
nextBlinkInterval)

The Math.random() draws an update may consume are passed in explicitly;
each lies in [0, 1).  The second component of the result is the blink
weight written to the expression manager this update (none when the
waiting branch writes nothing). -/

structure BlinkState where
  blinkPhase : String
  blinkTimer : ℚ
  blinkT : ℚ
  blinkCloseTime : ℚ
  blinkHoldTime : ℚ
  blinkOpenTime : ℚ
deriving DecidableEq, Repr

structure BlinkRands where
  rClose : ℚ
  rHold : ℚ
  rOpen : ℚ
  rBase : ℚ
  rStareP : ℚ
  rStare : ℚ
  rDoubleP : ℚ
  rDouble : ℚ
deriving Repr

def easeInQuad (t : ℚ) : ℚ := t * t

def easeOutQuad (t : ℚ) : ℚ := t * (2 - t)

/-- nextBlinkInterval(): 2.5 + rand * 3.5, extended by 3 + rand * 4 with
10% probability. -/
def nextBlinkInterval (rBase rStareP rStare : ℚ) : ℚ :=
  let base := 5 / 2 + rBase * (7 / 2)
  if rStareP < 1 / 10 then base + 3 + rStare * 4 else base

def updateBlink (delta : ℚ) (rnd : BlinkRands) (s : BlinkState) :
    BlinkState × Option ℚ :=
  match s.blinkPhase with
  | "waiting" =>
    let timer := s.blinkTimer - delta
    if timer ≤ 0 then
      (⟨"closing", timer, 0,
        3 / 50 + rnd.rClose * (1 / 25),
        1 / 50 + rnd.rHold * (1 / 25),
        2 / 25 + rnd.rOpen * (3 / 50)⟩, none)
    else ({ s with blinkTimer := timer }, none)
  | "closing" =>
    let t := s.blinkT + delta / s.blinkCloseTime
    if 1 ≤ t then
      ({ s with blinkT := 0, blinkPhase := "closed" }, some 1)
    else
      ({ s with blinkT := t }, some (easeInQuad t))
  | "closed" =>
    let t := s.blinkT + delta / s.blinkHoldTime
    if 1 ≤ t then
      ({ s with blinkT := 0, blinkPhase := "opening" }, some 1)
    else
      ({ s with blinkT := t }, some 1)
  | "opening" =>
    let t := s.blinkT + delta / s.blinkOpenTime
    if 1 ≤ t then
      let timer := nextBlinkInterval rnd.rBase rnd.rStareP rnd.rStare
      let timer := if rnd.rDoubleP < 3 / 20 then 3 / 20 + rnd.rDouble * (1 / 10) else timer
      ({ s with blinkT := t, blinkPhase := "waiting", blinkTimer := timer }, some 0)
    else
      ({ s with blinkT := t }, some (1 - easeOutQuad t))
  | _ => (s, none)

/-! ## Jelly click effect (JellyEffect: triggerImpulse / triggerWithWave /
update)

Spring physics on bone scale: per spring a scale offset, a velocity, a
wave-propagation delay and an activation flag; the driven raw bone's scale
is carried alongside.  Length thresholds are compared on squared norms. -/

structure SpringState where
  boneName : String
  offset : Vec3
  velocity : Vec3
  delay : ℚ
  delayLeft : ℚ
  activated : Bool
  scale : Vec3
deriving DecidableEq, Repr

structure JellyEffect where
  springs : List SpringState
  active : Bool
deriving DecidableEq, Repr

def jellyTension : ℚ := 300

def jellyDamping : ℚ := 8

def jellyMaxDisplacement : ℚ := 7 / 20

def jellyEpsilon : ℚ := 1 / 200

def JELLY_BONES : List String :=
  ["hips", "spine", "chest", "upperChest",
   "head", "neck",
   "leftUpperArm", "leftLowerArm", "leftHand",
   "rightUpperArm", "rightLowerArm", "rightHand",
   "leftUpperLeg", "leftLowerLeg", "leftFoot",
   "rightUpperLeg", "rightLowerLeg", "rightFoot"]

def BONE_CHAIN : String → List String
  | "hips" => ["spine"]
  | "spine" => ["chest", "leftUpperLeg", "rightUpperLeg"]
  | "chest" => ["upperChest"]
  | "upperChest" => ["neck", "leftUpperArm", "rightUpperArm"]
  | "neck" => ["head"]
  | "leftUpperArm" => ["leftLowerArm"]
  | "leftLowerArm" => ["leftHand"]
  | "rightUpperArm" => ["rightLowerArm"]
  | "rightLowerArm" => ["rightHand"]
  | "leftUpperLeg" => ["leftLowerLeg"]
  | "leftLowerLeg" => ["leftFoot"]
  | "rightUpperLeg" => ["rightLowerLeg"]
  | "rightLowerLeg" => ["rightFoot"]
  | _ => []

/-- bind(): one spring per jelly bone present on the avatar, at rest. -/
def JellyEffect.bind (vrm : VRMAvatar) : JellyEffect :=
  ⟨(JELLY_BONES.filter (fun b => (vrm.bones b).isSome)).map
      (fun b => ⟨b, Vec3.zero, Vec3.zero, 0, 0, false, ⟨1, 1, 1⟩⟩),
    false⟩

/-- triggerWithWave: impulse the named spring (squish X/Z, stretch Y, each
component scaled by 0.6 + rand * 0.8) and recurse into the bone chain's
children at 0.6x intensity and +0.06s delay.  The chain table is a finite
tree, so the source recursion terminates; the fuel argument bounds the
walk's depth and is passed in no smaller than the tree's depth. -/
def triggerWithWave (rnd : String → Vec3) :
    ℕ → JellyEffect → String → ℚ → ℚ → JellyEffect
  | 0, j, _, _, _ => j
  | fuel + 1, j, boneName, intensity, delay =>
    if j.springs.any (fun s => s.boneName = boneName) then
      let j1 : JellyEffect :=
        ⟨j.springs.map (fun s =>
          if s.boneName = boneName then
            { s with
              velocity :=
                ⟨-intensity * (3 / 5 + (rnd boneName).x * (4 / 5)),
                 intensity * (3 / 5 + (rnd boneName).y * (4 / 5)),
                 -intensity * (3 / 5 + (rnd boneName).z * (4 / 5))⟩
              delay := delay, delayLeft := delay, activated := true }
          else s),
         j.active⟩
      (BONE_CHAIN boneName).foldl
        (fun acc child => triggerWithWave rnd fuel acc child (intensity * (3 / 5)) (delay + 3 / 50))
        j1
    else j

/-- triggerImpulse(boneName, intensity): mark the effect active and start
the wave ('all' starts from the hips). -/
def triggerImpulse (rnd : String → Vec3) (j : JellyEffect)
    (boneName : String) (intensity : ℚ) : JellyEffect :=
  let j := { j with active := true }
  if boneName = "all" then triggerWithWave rnd (JELLY_BONES.length) j "hips" intensity 0
  else triggerWithWave rnd (JELLY_BONES.length) j boneName intensity 0

/-- One spring's share of update(dt): wait out the propagation delay, else
integrate (semi-implicit Euler), clamp the offset, drive the bone scale,
and settle (snap offset and velocity to zero and the scale to identity)
when both lengths are at or below epsilon.  The Bool is this spring's
contribution to anyActive. -/
def stepSpring (dt : ℚ) (s : SpringState) : SpringState × Bool :=
  if s.activated = false then (s, false) else
  if 0 < s.delayLeft then ({ s with delayLeft := s.delayLeft - dt }, true) else
  let springF := s.offset.scale (-jellyTension)
  let dampF := s.velocity.scale (-jellyDamping)
  let accel := springF.add dampF
  let velocity := s.velocity.add (accel.scale dt)
  let offset := (s.offset.add (velocity.scale dt)).clampScalar
    (-jellyMaxDisplacement) jellyMaxDisplacement
  if jellyEpsilon ^ 2 < velocity.normSq ∨ jellyEpsilon ^ 2 < offset.normSq then
    ({ s with
      velocity := velocity, offset := offset
      scale := ⟨1 + offset.x, 1 + offset.y, 1 + offset.z⟩ }, true)
  else
    ({ s with
      velocity := Vec3.zero, offset := Vec3.zero, activated := false
      scale := ⟨1, 1, 1⟩ }, false)

/-- update(delta): nothing while inactive; else cap the timestep at 0.05,
advance every spring, and stay active only while some spring is. -/
def JellyEffect.update (j : JellyEffect) (delta : ℚ) : JellyEffect :=
  if j.active = false then j else
  let dt := qmin delta (1 / 20)
  let stepped := j.springs.map (stepSpring dt)
  ⟨stepped.map Prod.fst, stepped.any Prod.snd⟩

/-- n updates at a fixed frame delta. -/
def jellyIter (delta : ℚ) : ℕ → JellyEffect → JellyEffect
  | 0, j => j
  | n + 1, j => jellyIter delta n (j.update delta)

/-- A spring at rest with its bone scale at identity. -/
def SpringState.quiescent (s : SpringState) : Prop :=
  s.activated = false ∧ s.offset = Vec3.zero ∧ s.velocity = Vec3.zero ∧
    s.scale = ⟨1, 1, 1⟩

instance (s : SpringState) : Decidable s.quiescent := by
  unfold SpringState.quiescent; infer_instance

/-- The per-component Lyapunov form adapted to the step size: for the
semi-implicit Euler map with tension 300 and damping 8 it contracts by the
exact factor (1 - 8 dt) every integration step. -/
def lyap (dt x v : ℚ) : ℚ :=
  300 * x ^ 2 + 2 * (4 - 150 * dt) * x * v + (1 - 8 * dt) * v ^ 2

/-- The spring's Lyapunov value: the sum over the three scale components. -/
def lyapV (dt : ℚ) (o vel : Vec3) : ℚ :=
  lyap dt o.x vel.x + lyap dt o.y vel.y + lyap dt o.z vel.z

/-! ## Procedural animation generator (procedural-animations:
REST_POSE, quatTrack/posTrack helpers, idle_breathe, dance_happy,
dance_hiphop)

Euler triples are rational; the euler-to-quaternion conversion (engine
setFromEuler followed by flattening x,y,z,w into the value array) is an
abstract parameter quatOfEuler, since no claim depends on its values. -/

def REST_POSE_leftUpperArm : Vec3 := ⟨1 / 5, 0, 23 / 20⟩

def REST_POSE_rightUpperArm : Vec3 := ⟨1 / 5, 0, -(23 / 20)⟩

def REST_POSE_leftLowerArm : Vec3 := ⟨0, 0, 2 / 25⟩

def REST_POSE_rightLowerArm : Vec3 := ⟨0, 0, -(2 / 25)⟩

/-- addEuler: base plus small offsets. -/
def addEuler (base : Vec3) (dx dy dz : ℚ) : Vec3 :=
  ⟨base.x + dx, base.y + dy, base.z + dz⟩

def getBone (vrm : VRMAvatar) (name : String) : Option BoneNode :=
  vrm.bones name

/-- quatTrack: one quaternion keyframe track from absolute Euler values. -/
def quatTrack (quatOfEuler : Vec3 → List ℚ) (bone : BoneNode)
    (times : List ℚ) (eulers : List Vec3) : Track :=
  ⟨bone.name ++ ".quaternion", times, (eulers.map quatOfEuler).flatten⟩

/-- posTrack: one position keyframe track of base position plus offsets. -/
def posTrack (bone : BoneNode) (times : List ℚ) (offsets : List Vec3) : Track :=
  ⟨bone.name ++ ".position", times,
   (offsets.map (fun o =>
     [bone.position.x + o.x, bone.position.y + o.y, bone.position.z + o.z])).flatten⟩

/-- The conditional track push: if (bone) tracks.push(...). -/
def boneTracks (o : Option BoneNode) (mk : BoneNode → List Track) : List Track :=
  match o with
  | some b => mk b
  | none => []

namespace PROCEDURAL_CLIPS

/-- The idle_breathe generator. -/
def idle_breathe (qe : Vec3 → List ℚ) (vrm : VRMAvatar) : Option Clip :=
  let dur : ℚ := 4
  let spine := getBone vrm "spine"
  let chest := getBone vrm "chest"
  let head := getBone vrm "head"
  let lArm := getBone vrm "leftUpperArm"
  let rArm := getBone vrm "rightUpperArm"
  let hips := getBone vrm "hips"
  let tracks : List Track :=
    boneTracks spine (fun b => [posTrack b [0, 13 / 10, 13 / 5, dur]
      [⟨0, 0, 0⟩, ⟨0, 3 / 1000, 0⟩, ⟨0, 1 / 1000, 0⟩, ⟨0, 0, 0⟩]])
    ++ boneTracks chest (fun b => [quatTrack qe b [0, 13 / 10, 13 / 5, dur]
      [⟨0, 0, 0⟩, ⟨3 / 200, 0, 0⟩, ⟨1 / 200, 0, 0⟩, ⟨0, 0, 0⟩]])
    ++ boneTracks head (fun b => [quatTrack qe b [0, 6 / 5, 2, 16 / 5, dur]
      [⟨1 / 50, 1 / 100, 0⟩, ⟨-(1 / 100), -(1 / 50), 0⟩,
       ⟨3 / 200, 1 / 50, 1 / 200⟩, ⟨-(1 / 100), -(1 / 100), -(1 / 200)⟩,
       ⟨1 / 50, 1 / 100, 0⟩]])
    ++ boneTracks hips (fun b =>
      [posTrack b [0, 2, dur] [⟨0, 0, 0⟩, ⟨3 / 1000, 0, 0⟩, ⟨0, 0, 0⟩]])
    ++ boneTracks lArm (fun b => [quatTrack qe b [0, 3 / 2, 3, dur]
      [REST_POSE_leftUpperArm, addEuler REST_POSE_leftUpperArm 0 0 (-(1 / 50)),
       addEuler REST_POSE_leftUpperArm 0 0 (3 / 200), REST_POSE_leftUpperArm]])
    ++ boneTracks rArm (fun b => [quatTrack qe b [0, 3 / 2, 3, dur]
      [REST_POSE_rightUpperArm, addEuler REST_POSE_rightUpperArm 0 0 (1 / 50),
       addEuler REST_POSE_rightUpperArm 0 0 (-(3 / 200)), REST_POSE_rightUpperArm]])
  if tracks.length > 0 then some ⟨"idle_breathe", dur, tracks⟩ else none

/-- The dance_happy generator. -/
def dance_happy (qe : Vec3 → List ℚ) (vrm : VRMAvatar) : Option Clip :=
  let dur : ℚ := 4
  let hips := getBone vrm "hips"
  let spine := getBone vrm "spine"
  let head := getBone vrm "head"
  let lArm := getBone vrm "leftUpperArm"
  let rArm := getBone vrm "rightUpperArm"
  let lForearm := getBone vrm "leftLowerArm"
  let rForearm := getBone vrm "rightLowerArm"
  let t9 : List ℚ := [0, 1 / 2, 1, 3 / 2, 2, 5 / 2, 3, 7 / 2, dur]
  let tracks : List Track :=
    boneTracks hips (fun b =>
      [posTrack b t9
        [⟨0, 0, 0⟩, ⟨1 / 125, 1 / 100, 0⟩, ⟨-(1 / 125), 0, 0⟩,
         ⟨1 / 125, 1 / 100, 0⟩, ⟨-(1 / 125), 0, 0⟩, ⟨1 / 125, 1 / 100, 0⟩,
         ⟨-(1 / 125), 0, 0⟩, ⟨1 / 125, 1 / 100, 0⟩, ⟨0, 0, 0⟩],
       quatTrack qe b t9
        [⟨0, 0, 0⟩, ⟨0, 0, 3 / 100⟩, ⟨0, 0, -(3 / 100)⟩,
         ⟨0, 0, 3 / 100⟩, ⟨0, 0, -(3 / 100)⟩, ⟨0, 0, 3 / 100⟩,
         ⟨0, 0, -(3 / 100)⟩, ⟨0, 0, 3 / 100⟩, ⟨0, 0, 0⟩]])
    ++ boneTracks spine (fun b => [quatTrack qe b [0, 1, 2, 3, dur]
      [⟨0, 0, 1 / 50⟩, ⟨0, 0, -(3 / 100)⟩, ⟨0, 0, 3 / 100⟩,
       ⟨0, 0, -(3 / 100)⟩, ⟨0, 0, 1 / 50⟩]])
    ++ boneTracks head (fun b => [quatTrack qe b t9
      [⟨0, 0, 1 / 25⟩, ⟨-(1 / 25), 0, -(1 / 25)⟩, ⟨0, 0, 1 / 25⟩,
       ⟨-(1 / 25), 0, -(1 / 25)⟩, ⟨0, 0, 1 / 25⟩, ⟨-(1 / 25), 0, -(1 / 25)⟩,
       ⟨0, 0, 1 / 25⟩, ⟨-(1 / 25), 0, -(1 / 25)⟩, ⟨0, 0, 1 / 25⟩]])
    ++ boneTracks lArm (fun b => [quatTrack qe b t9
      [addEuler REST_POSE_leftUpperArm 0 0 (-(17 / 20)), ⟨-(1 / 5), 0, 1⟩,
       addEuler REST_POSE_leftUpperArm 0 0 (-(17 / 20)), ⟨-(1 / 5), 0, 1⟩,
       addEuler REST_POSE_leftUpperArm 0 0 (-(17 / 20)), ⟨-(1 / 5), 0, 1⟩,
       addEuler REST_POSE_leftUpperArm 0 0 (-(17 / 20)), ⟨-(1 / 5), 0, 1⟩,
       addEuler REST_POSE_leftUpperArm 0 0 (-(17 / 20))]])
    ++ boneTracks rArm (fun b => [quatTrack qe b t9
      [⟨-(1 / 5), 0, -1⟩, addEuler REST_POSE_rightUpperArm 0 0 (17 / 20),
       ⟨-(1 / 5), 0, -1⟩, addEuler REST_POSE_rightUpperArm 0 0 (17 / 20),
       ⟨-(1 / 5), 0, -1⟩, addEuler REST_POSE_rightUpperArm 0 0 (17 / 20),
       ⟨-(1 / 5), 0, -1⟩, addEuler REST_POSE_rightUpperArm 0 0 (17 / 20),
       ⟨-(1 / 5), 0, -1⟩]])
    ++ boneTracks lForearm (fun b => [quatTrack qe b [0, dur]
      [addEuler REST_POSE_leftLowerArm (-(3 / 5)) 0 0,
       addEuler REST_POSE_leftLowerArm (-(3 / 5)) 0 0]])
    ++ boneTracks rForearm (fun b => [quatTrack qe b [0, dur]
      [addEuler REST_POSE_rightLowerArm (-(3 / 5)) 0 0,
       addEuler REST_POSE_rightLowerArm (-(3 / 5)) 0 0]])
  if tracks.length > 0 then some ⟨"dance_happy", dur, tracks⟩ else none

/-- The dance_hiphop generator: reuse dance_happy, rename the clip. -/
def dance_hiphop (qe : Vec3 → List ℚ) (vrm : VRMAvatar) : Option Clip :=
  match dance_happy qe vrm with
  | some clip => some { clip with name := "dance_hiphop" }
  | none => none

end PROCEDURAL_CLIPS

/-- A clip-level statement that every track targets a bone the avatar has:
each track name is an existing bone's node name plus the animated
property. -/
def tracksOnAvatar (vrm : VRMAvatar) (c : Clip) : Prop :=
  ∀ t ∈ c.tracks, ∃ canonical b, vrm.bones canonical = some b ∧
    (t.name = b.name ++ ".quaternion" ∨ t.name = b.name ++ ".position")

/-- The same statement for retargeted track lists. -/
def keyTracksOnAvatar (vrm : VRMAvatar) (ts : List KeyTrack) : Prop :=
  ∀ t ∈ ts, ∃ canonical b, vrm.bones canonical = some b ∧
    ((∃ p times vs, t = KeyTrack.rot b.name p times vs) ∨
     (∃ p times vs, t = KeyTrack.pos b.name p times vs))

/-! ## Concrete inputs for witnesses and counterexamples -/

/-- An avatar owning every canonical bone, each resolved to a scene node
whose name prefixes the canonical name. -/
def avatarFull : VRMAvatar :=
  ⟨fun n => some ⟨"J_" ++ n, Vec3.zero⟩⟩

/-- An avatar with no bones at all. -/
def avatarEmpty : VRMAvatar := ⟨fun _ => none⟩

/-- A source-rest-pose oracle in which every node exists with identity
world rest rotation, as for a skeleton whose rest pose already matches the
normalized target rig. -/
def restIdentity : String → Option Quat := fun _ => some Quat.one

def parentRestIdentity : String → Quat := fun _ => Quat.one

/-- A unit bias quaternion (rotation about Z with cos of the half angle
3/5, sine 4/5) standing for an active left-arm spread bias. -/
def biasLeftSample : Quat := ⟨0, 0, -(4 / 5), 3 / 5⟩

def biasRightSample : Quat := ⟨0, 0, 4 / 5, 3 / 5⟩

/-- One identity rotation keyframe on the mixamo left upper arm. -/
def srcTrackLUA : KeyTrack :=
  KeyTrack.rot "mixamorigLeftArm" "quaternion" [0] [Quat.one]

/-- Each Math.random() draw lies in [0, 1). -/
def randsInRange (r : BlinkRands) : Prop :=
  (0 ≤ r.rClose ∧ r.rClose < 1) ∧ (0 ≤ r.rHold ∧ r.rHold < 1) ∧
  (0 ≤ r.rOpen ∧ r.rOpen < 1) ∧ (0 ≤ r.rBase ∧ r.rBase < 1) ∧
  (0 ≤ r.rStareP ∧ r.rStareP < 1) ∧ (0 ≤ r.rStare ∧ r.rStare < 1) ∧
  (0 ≤ r.rDoubleP ∧ r.rDoubleP < 1) ∧ (0 ≤ r.rDouble ∧ r.rDouble < 1)

/-- A playback state with a running loop and a running previous one-shot,
used to instantiate the one-shot theorems. -/
def sampleOneShotManager : AnimationManager :=
  { boundManager with
    activeLoopActionId := some "idle_happy"
    activeLoopMotionId := some "idle_happy"
    activeShotActionId := some "nod" }

/-- A one-spring jelly effect on the head bone, as bound on an avatar with
only a head. -/
def headOnlyJelly : JellyEffect :=
  ⟨[⟨"head", Vec3.zero, Vec3.zero, 0, 0, false, ⟨1, 1, 1⟩⟩], false⟩

/-! ## Settling analysis helpers for the jelly springs -/

/-- One scalar component of stepSpring's semi-implicit Euler velocity
update. -/
def compV (dt x v : ℚ) : ℚ := v + dt * ((-jellyTension) * x + (-jellyDamping) * v)

/-- One scalar component of stepSpring's clamped position update. -/
def compX (dt x v : ℚ) : ℚ :=
  clampQ (x + dt * compV dt x v) (-jellyMaxDisplacement) jellyMaxDisplacement

/-- The velocity vector stepSpring's integration branch writes. -/
def newVel (dt : ℚ) (s : SpringState) : Vec3 :=
  ⟨compV dt s.offset.x s.velocity.x, compV dt s.offset.y s.velocity.y,
   compV dt s.offset.z s.velocity.z⟩

/-- The offset vector stepSpring's integration branch writes. -/
def newOff (dt : ℚ) (s : SpringState) : Vec3 :=
  ⟨compX dt s.offset.x s.velocity.x, compX dt s.offset.y s.velocity.y,
   compX dt s.offset.z s.velocity.z⟩

/-- The state part of one spring step. -/
def sStep (dt : ℚ) (s : SpringState) : SpringState := (stepSpring dt s).1

/-- n spring steps at a fixed dt. -/
def sIter (dt : ℚ) : ℕ → SpringState → SpringState
  | 0, s => s
  | n + 1, s => sIter dt n (sStep dt s)

/-- Componentwise offset bound: within the clamp range ±0.35. -/
def obound (s : SpringState) : Prop :=
  qabs s.offset.x ≤ 7 / 20 ∧ qabs s.offset.y ≤ 7 / 20 ∧ qabs s.offset.z ≤ 7 / 20

/-- The largest velocity-component magnitude of a spring. -/
def vmaxA (s : SpringState) : ℚ :=
  max |s.velocity.x| (max |s.velocity.y| |s.velocity.z|)


/-! # Theorems -/

/-! ## C10: dance_hiphop delegates to dance_happy -/

/-- C10: for every avatar, the dance_hiphop generator returns a clip with
exactly the tracks and duration of dance_happy on that avatar, differing
only in the clip name, and the two generators return none for exactly the
same avatars. -/
theorem C10_dance_hiphop_is_renamed_dance_happy (qe : Vec3 → List ℚ) (vrm : VRMAvatar) :
    (PROCEDURAL_CLIPS.dance_hiphop qe vrm).map Clip.tracks =
      (PROCEDURAL_CLIPS.dance_happy qe vrm).map Clip.tracks ∧
    (PROCEDURAL_CLIPS.dance_hiphop qe vrm).map Clip.duration =
      (PROCEDURAL_CLIPS.dance_happy qe vrm).map Clip.duration ∧
    (∀ c, PROCEDURAL_CLIPS.dance_hiphop qe vrm = some c → c.name = "dance_hiphop") ∧
    (PROCEDURAL_CLIPS.dance_hiphop qe vrm = none ↔
      PROCEDURAL_CLIPS.dance_happy qe vrm = none) := by
  unfold PROCEDURAL_CLIPS.dance_hiphop
  cases h : PROCEDURAL_CLIPS.dance_happy qe vrm with
  | none => simp
  | some c =>
    refine ⟨rfl, rfl, ?_, by simp⟩
    intro c' hc'
    simp only [Option.some.injEq] at hc'
    subst hc'
    rfl

/-! ## C6: two-bone IK reachability clamps -/

/-- C6 counterexample: with unit bone lengths and a target at distance 3
(beyond upperLen + lowerLen = 2), the solver does not clamp the elbow to
the fully-extended configuration (law-of-cosines value -1, elbow angle
pi): the distance is clamped to 98% of the reach, leaving a bent elbow. -/
theorem C6_far_target_not_fully_extended :
    solveElbowCos 1 1 3 ≠ -1 ∧ clampedTargetDist 1 1 3 ≠ 1 + 1 := by
  norm_num [solveElbowCos, clampedTargetDist, lawOfCosinesArg, clampQ, qmax, qmin, qabs]

/-- Bridging Math.max and Math.min to the order operations. -/
theorem qmax_eq_max (a b : ℚ) : qmax a b = max a b := by
  unfold qmax
  split
  · exact (max_eq_right (by assumption)).symm
  · exact (max_eq_left (le_of_not_le (by assumption))).symm

theorem qmin_eq_min (a b : ℚ) : qmin a b = min a b := by
  unfold qmin
  split
  · exact (min_eq_left (by assumption)).symm
  · exact (min_eq_right (le_of_not_le (by assumption))).symm

/-- C6 (amended): for positive bone lengths the law-of-cosines argument is
clamped into [-1, 1] (so acos is NaN-free), targets beyond 98% of
upperLen + lowerLen solve exactly as a target at that 98% reach, and
targets inside |upperLen - lowerLen| + 0.01 solve exactly as a target at
that inner margin. -/
theorem C6_elbow_cos_clamped (u l d : ℚ) (hu : 0 < u) (hl : 0 < l) :
    (-1 ≤ solveElbowCos u l d ∧ solveElbowCos u l d ≤ 1) ∧
    ((u + l) * (49 / 50) ≤ d →
      solveElbowCos u l d = solveElbowCos u l ((u + l) * (49 / 50))) ∧
    (d ≤ qabs (u - l) + 1 / 100 →
      solveElbowCos u l d = solveElbowCos u l (qabs (u - l) + 1 / 100)) := by
  refine ⟨⟨?_, ?_⟩, ?_, ?_⟩
  · rw [solveElbowCos, clampQ, qmax_eq_max, qmin_eq_min]
    exact le_max_left _ _
  · rw [solveElbowCos, clampQ, qmax_eq_max, qmin_eq_min]
    exact max_le (by norm_num) (min_le_right _ _)
  · intro hfar
    have e : clampedTargetDist u l d = clampedTargetDist u l ((u + l) * (49 / 50)) := by
      simp only [clampedTargetDist]
      rw [qmin_eq_min, qmin_eq_min, min_eq_right hfar, min_self]
    unfold solveElbowCos
    rw [e]
  · intro hnear
    have e : clampedTargetDist u l d = clampedTargetDist u l (qabs (u - l) + 1 / 100) := by
      simp only [clampedTargetDist]
      rw [qmin_eq_min, qmin_eq_min, qmax_eq_max, qmax_eq_max,
        max_eq_right (le_trans (min_le_left _ _) hnear),
        max_eq_right (min_le_left _ _)]
    unfold solveElbowCos
    rw [e]

/-- C6 witness: the theorem applied at unit arms and a far target. -/
theorem C6_elbow_cos_clamped_witness :
    (-1 ≤ solveElbowCos 1 1 3 ∧ solveElbowCos 1 1 3 ≤ 1) ∧
    ((1 + 1) * (49 / 50) ≤ (3 : ℚ) →
      solveElbowCos 1 1 3 = solveElbowCos 1 1 ((1 + 1) * (49 / 50))) ∧
    ((3 : ℚ) ≤ qabs (1 - 1) + 1 / 100 →
      solveElbowCos 1 1 3 = solveElbowCos 1 1 (qabs (1 - 1) + 1 / 100)) :=
  C6_elbow_cos_clamped 1 1 3 (by norm_num) (by norm_num)

/-! ## C1: playMotionWithFallback never throws, but does not report
missing animations -/

/-- C1: playMotion never uses its exception channel (every asset failure
is caught at the clip-loading boundary), and at the failing input -- a
bound mixer, an id in no library and no procedural registry --
playMotionWithFallback returns true, although no animation was started. -/
theorem C1_playMotionWithFallback_no_throw_but_true :
    (∀ (assetLoad procedural : String → Option Clip) (st : AnimationManager)
      (motionId : String),
      ∃ st', playMotion assetLoad procedural st motionId = .ok st') ∧
    (playMotionWithFallback noClips noClips boundManager "mystery_motion").1 = true := by
  constructor
  · intro assetLoad procedural st motionId
    unfold playMotion
    split
    · exact ⟨_, rfl⟩
    · dsimp only
      split
      · exact ⟨_, rfl⟩
      · split <;> exact ⟨_, rfl⟩
  · rfl

/-! ## C5: retargeting round-trip -/

theorem Quat_one_mul (q : Quat) : Quat.one.mul q = q := by
  cases q
  simp only [Quat.mul, Quat.one]
  congr 1 <;> ring

theorem Quat_mul_one (q : Quat) : q.mul Quat.one = q := by
  cases q
  simp only [Quat.mul, Quat.one]
  congr 1 <;> ring

theorem Quat_one_conj : Quat.one.conj = Quat.one := by
  simp only [Quat.conj, Quat.one, neg_zero]

/-- With identity rest rotations, no axis flip and no bias, one retargeted
keyframe is the source keyframe. -/
theorem retargetFrame_id (q : Quat) :
    retargetFrame Quat.one Quat.one.conj false none q = q := by
  simp only [retargetFrame, Quat_one_conj, Quat_one_mul, Quat_mul_one,
    Bool.false_eq_true, if_false]

/-- C5 counterexample: on a source skeleton whose rest pose matches the
target (all rest world rotations the identity), with the arm-spread bias
active, the retargeted left-upper-arm keyframe is the bias rotation, not
the original identity rotation: retargeting is not an identity round-trip
for the upper-arm bones. -/
theorem C5_bias_breaks_roundtrip :
    loadMixamoAnimation avatarFull false
        (mkArmBiasQuats true biasLeftSample biasRightSample)
        restIdentity parentRestIdentity 1 [srcTrackLUA] =
      [KeyTrack.rot "J_leftUpperArm" "quaternion" [0] [biasLeftSample]] ∧
    biasLeftSample ≠ Quat.one := by
  constructor
  · have hb : retargetFrame Quat.one Quat.one.conj false (some biasLeftSample) Quat.one
        = biasLeftSample := by
      simp only [retargetFrame, Quat_one_conj, Quat_one_mul, Quat_mul_one,
        Bool.false_eq_true, if_false]
    have hr : rigLookup "mixamorigLeftArm" = some "leftUpperArm" := by rfl
    simp [loadMixamoAnimation, srcTrackLUA, hr, avatarFull, restIdentity,
      parentRestIdentity, mkArmBiasQuats, hb]
  · intro h
    have : biasLeftSample.w = Quat.one.w := by rw [h]
    simp only [biasLeftSample, Quat.one] at this
    norm_num at this

/-- C5 (amended): with the arm-spread bias inactive (magnitude at most
0.001 rad, so no bias quaternions are built) and a VRM1 target, retargeting
a clip from a source skeleton whose rest pose matches the target's (all
source rest world rotations are the identity) reproduces the original
local rotations bone-for-bone: every mapped rotation track of a bone the
avatar owns reappears with its original keyframe values. -/
theorem C5_identity_roundtrip (vrm : VRMAvatar)
    (srcRestWorld : String → Option Quat) (srcParentRestWorld : String → Quat)
    (scale : ℚ) (tracks : List KeyTrack) (bL bR : Quat)
    (hrest : ∀ n q, srcRestWorld n = some q → q = Quat.one)
    (hparent : ∀ n, srcParentRestWorld n = Quat.one) :
    ∀ n p times vs, KeyTrack.rot n p times vs ∈ tracks →
      ∀ vb node, rigLookup n = some vb → vrm.bones vb = some node →
        srcRestWorld n ≠ none →
        KeyTrack.rot node.name p times vs ∈
          loadMixamoAnimation vrm false (mkArmBiasQuats false bL bR)
            srcRestWorld srcParentRestWorld scale tracks := by
  intro n p times vs ht vb node hvb hnode hrw
  rcases Option.ne_none_iff_exists'.mp hrw with ⟨q, hq⟩
  have hq1 := hrest n q hq
  subst hq1
  refine List.mem_filterMap.mpr ⟨_, ht, ?_⟩
  simp only [loadMixamoAnimation, hvb, hnode, hq, hparent, mkArmBiasQuats,
    Bool.false_eq_true, if_false]
  simp [retargetFrame_id, List.map_id'']

/-- C5 witness: the amended theorem applied to a one-keyframe clip on the
left upper arm over an all-bones avatar. -/
theorem C5_identity_roundtrip_witness :
    KeyTrack.rot "J_leftUpperArm" "quaternion" [0] [Quat.one] ∈
      loadMixamoAnimation avatarFull false (mkArmBiasQuats false Quat.one Quat.one)
        restIdentity parentRestIdentity 1 [srcTrackLUA] :=
  C5_identity_roundtrip avatarFull restIdentity parentRestIdentity 1 [srcTrackLUA]
    Quat.one Quat.one
    (fun _ q hq => by simpa [restIdentity] using hq.symm)
    (fun _ => rfl)
    "mixamorigLeftArm" "quaternion" [0] [Quat.one]
    (by simp [srcTrackLUA])
    "leftUpperArm" ⟨"J_leftUpperArm", Vec3.zero⟩
    (by rfl) (by rfl)
    (by simp [restIdentity])

/-! ## C9: clips carry tracks only for bones the avatar owns -/

theorem mem_boneTracks {o : Option BoneNode} {mk : BoneNode → List Track} {t : Track}
    (h : t ∈ boneTracks o mk) : ∃ b, o = some b ∧ t ∈ mk b := by
  cases o with
  | none => simp [boneTracks] at h
  | some b => exact ⟨b, rfl, by simpa [boneTracks] using h⟩

/-- C9: for every avatar, however many canonical bones it lacks, the
idle_breathe generator and the retargeting engine complete (they are total
functions) and produce only tracks addressed to bones the avatar owns:
absent bones are skipped, never an error. -/
theorem C9_absent_bones_skipped (qe : Vec3 → List ℚ) (vrm : VRMAvatar) :
    (∀ c, PROCEDURAL_CLIPS.idle_breathe qe vrm = some c → tracksOnAvatar vrm c) ∧
    (∀ (isVRM0 : Bool) (bias : String → Option Quat)
      (restW : String → Option Quat) (parentW : String → Quat) (scale : ℚ)
      (srcTracks : List KeyTrack),
      keyTracksOnAvatar vrm
        (loadMixamoAnimation vrm isVRM0 bias restW parentW scale srcTracks)) := by
  constructor
  · intro c hc
    simp only [PROCEDURAL_CLIPS.idle_breathe] at hc
    split at hc
    case isTrue =>
      rw [Option.some_inj] at hc
      subst hc
      intro t ht
      simp only [List.mem_append] at ht
      rcases ht with ((((ht | ht) | ht) | ht) | ht) | ht
      · obtain ⟨b, hb, htm⟩ := mem_boneTracks ht
        rw [List.mem_singleton] at htm
        subst htm
        exact ⟨"spine", b, hb, Or.inr rfl⟩
      · obtain ⟨b, hb, htm⟩ := mem_boneTracks ht
        rw [List.mem_singleton] at htm
        subst htm
        exact ⟨"chest", b, hb, Or.inl rfl⟩
      · obtain ⟨b, hb, htm⟩ := mem_boneTracks ht
        rw [List.mem_singleton] at htm
        subst htm
        exact ⟨"head", b, hb, Or.inl rfl⟩
      · obtain ⟨b, hb, htm⟩ := mem_boneTracks ht
        rw [List.mem_singleton] at htm
        subst htm
        exact ⟨"hips", b, hb, Or.inr rfl⟩
      · obtain ⟨b, hb, htm⟩ := mem_boneTracks ht
        rw [List.mem_singleton] at htm
        subst htm
        exact ⟨"leftUpperArm", b, hb, Or.inl rfl⟩
      · obtain ⟨b, hb, htm⟩ := mem_boneTracks ht
        rw [List.mem_singleton] at htm
        subst htm
        exact ⟨"rightUpperArm", b, hb, Or.inl rfl⟩
    case isFalse => exact absurd hc (by simp)
  · intro isVRM0 bias restW parentW scale srcTracks t ht
    obtain ⟨a, ha, hfa⟩ := List.mem_filterMap.mp ht
    cases a with
    | rot n p times vs =>
      dsimp only at hfa
      cases hrl : rigLookup n with
      | none => simp only [hrl] at hfa; exact absurd hfa (by simp)
      | some vb =>
        simp only [hrl] at hfa
        cases hb : vrm.bones vb with
        | none => simp only [hb] at hfa; exact absurd hfa (by simp)
        | some node =>
          simp only [hb] at hfa
          cases hrw : restW n with
          | none => simp only [hrw] at hfa; exact absurd hfa (by simp)
          | some q =>
            simp only [hrw] at hfa
            rw [Option.some_inj] at hfa
            exact ⟨vb, node, hb, Or.inl ⟨p, times, _, hfa.symm⟩⟩
    | pos n p times vs =>
      dsimp only at hfa
      cases hrl : rigLookup n with
      | none => simp only [hrl] at hfa; exact absurd hfa (by simp)
      | some vb =>
        simp only [hrl] at hfa
        cases hb : vrm.bones vb with
        | none => simp only [hb] at hfa; exact absurd hfa (by simp)
        | some node =>
          simp only [hb] at hfa
          cases hrw : restW n with
          | none => simp only [hrw] at hfa; exact absurd hfa (by simp)
          | some q =>
            simp only [hrw] at hfa
            rw [Option.some_inj] at hfa
            exact ⟨vb, node, hb, Or.inr ⟨p, times, _, hfa.symm⟩⟩

/-! ## C2: the selection policy matches the spec -/

theorem mem_of_getLast?_eq {α : Type} {l : List α} {a : α}
    (h : l.getLast? = some a) : a ∈ l := by
  obtain ⟨hne, heq⟩ := List.mem_getLast?_eq_getLast (l := l) (x := a) h
  rw [heq]
  exact List.getLast_mem hne

theorem drawWeighted_mem :
    ∀ (ms : List MotionDef) (ws : List ℚ) (r : ℚ) (m : MotionDef),
    MotionHistory.drawWeighted ms ws r = some m → m ∈ ms := by
  intro ms
  induction ms with
  | nil => intro ws r m h; cases ws <;> simp [MotionHistory.drawWeighted] at h
  | cons a as ih =>
    intro ws r m h
    cases ws with
    | nil => simp [MotionHistory.drawWeighted] at h
    | cons w ws =>
      rw [MotionHistory.drawWeighted] at h
      split at h
      · rw [Option.some_inj] at h
        exact h ▸ List.mem_cons_self a as
      · exact List.mem_cons_of_mem a (ih ws (r - w) m h)

/-- pickWithRotation always draws a member of its pool. -/
theorem pickWithRotation_mem (h : MotionHistory) (candidates : List MotionDef)
    (prefer : Option String) (r : ℚ) (hne : candidates ≠ []) :
    ∃ m, h.pickWithRotation candidates prefer r = some m ∧
      m ∈ (if (candidates.filter
            (fun m => h.recentCount m.id < MAX_SAME_MOTION_USES)).length > 0
          then candidates.filter
            (fun m => h.recentCount m.id < MAX_SAME_MOTION_USES)
          else candidates) := by
  rw [MotionHistory.pickWithRotation, if_neg hne]
  dsimp only
  set elig := candidates.filter
    (fun m => h.recentCount m.id < MAX_SAME_MOTION_USES) with helig
  set pool := if elig.length > 0 then elig else candidates with hpool
  have hpoolne : pool ≠ [] := by
    rw [hpool]
    split
    case isTrue hp =>
      intro hemp
      rw [hemp] at hp
      simp at hp
    case isFalse => exact hne
  cases hd : MotionHistory.drawWeighted pool (pool.map (h.weightOf prefer)) r with
  | some m =>
    exact ⟨m, rfl, drawWeighted_mem _ _ _ _ hd⟩
  | none =>
    cases hl : pool.getLast? with
    | none => exact absurd (List.getLast?_eq_none_iff.mp hl) hpoolne
    | some m =>
      exact ⟨m, rfl, mem_of_getLast?_eq hl⟩

theorem record_history (h : MotionHistory) (id g : String) :
    (h.record id g).history = trimTen h.history id := by
  simp only [MotionHistory.record, MotionHistory.setGroup, trimTen, MAX_HISTORY]
  split <;> rfl

theorem foldl_trimTen :
    ∀ (xs l : List String), l.length ≤ 10 →
    xs.foldl trimTen l = (l ++ xs).drop (l.length + xs.length - 10) := by
  intro xs
  induction xs with
  | nil =>
    intro l hl
    simp only [List.foldl_nil, List.append_nil, List.length_nil, Nat.add_zero]
    rw [Nat.sub_eq_zero_of_le hl, List.drop_zero]
  | cons x xs ih =>
    intro l hl
    rw [List.foldl_cons]
    rcases Nat.lt_or_ge l.length 10 with hlt | hge
    · have htrim : trimTen l x = l ++ [x] := by
        unfold trimTen
        rw [if_neg]
        simp only [List.length_append, List.length_singleton, MAX_HISTORY]
        omega
      rw [htrim, ih (l ++ [x]) (by simp; omega)]
      have he : (l ++ [x]).length + xs.length - 10 = l.length + (xs.length + 1) - 10 := by
        simp
        omega
      rw [he, List.append_assoc, List.singleton_append]
      simp only [List.length_cons]
    · have h10 : l.length = 10 := le_antisymm hl hge
      have hlne : l ≠ [] := by
        intro he
        rw [he] at h10
        simp at h10
      have htrim : trimTen l x = (l ++ [x]).tail := by
        unfold trimTen
        rw [if_pos]
        simp only [List.length_append, List.length_singleton, MAX_HISTORY]
        omega
      have htl : (l ++ [x]).tail = l.tail ++ [x] := by
        cases l with
        | nil => exact absurd rfl hlne
        | cons a as => simp
      rw [htrim, htl, ih (l.tail ++ [x]) (by cases l with
        | nil => exact absurd rfl hlne
        | cons a as => simp at h10 ⊢; omega)]
      cases l with
      | nil => exact absurd rfl hlne
      | cons a as =>
        simp only [List.length_cons, List.tail_cons] at h10 ⊢
        have hd1 : (as ++ [x]).length + xs.length - 10 =
            as.length + (xs.length + 1) - 10 := by
          simp
          omega
        have hd2 : as.length + 1 + (xs.length + 1) - 10 =
            as.length + (xs.length + 1) - 10 + 1 := by
          omega
        rw [hd1, List.cons_append, hd2, List.drop_succ_cons, List.append_assoc,
          List.singleton_append]

theorem historyOfPlays_foldl :
    ∀ (plays : List (String × String)) (h : MotionHistory),
    (plays.foldl (fun h p => h.record p.1 p.2) h).history =
      (plays.map Prod.fst).foldl trimTen h.history := by
  intro plays
  induction plays with
  | nil => intro h; rfl
  | cons p ps ih =>
    intro h
    rw [List.foldl_cons, List.map_cons, List.foldl_cons, ih, record_history]

/-- The motion history's ring buffer holds exactly the 10 most recent
recorded plays. -/
theorem historyOfPlays_history (plays : List (String × String)) :
    (historyOfPlays plays).history = lastTenPlays (plays.map Prod.fst) := by
  rw [historyOfPlays, historyOfPlays_foldl, lastTenPlays]
  have := foldl_trimTen (plays.map Prod.fst) [] (by simp)
  simpa using this

theorem recentCount_eq_specRecentUse (plays : List (String × String)) (id : String) :
    (historyOfPlays plays).recentCount id = specRecentUse (plays.map Prod.fst) id := by
  rw [MotionHistory.recentCount, historyOfPlays_history, specRecentUse]

theorem weightOf_eq_specWeight (plays : List (String × String))
    (prefer : Option String) (m : MotionDef) :
    (historyOfPlays plays).weightOf prefer m =
      specWeight (plays.map Prod.fst) prefer m := by
  simp only [MotionHistory.weightOf, specWeight, recentCount_eq_specRecentUse,
    MAX_SAME_MOTION_USES]
  norm_num
  cases prefer with
  | none => simp
  | some g =>
    dsimp only
    split <;> simp

/-- C2: for every play log, candidate list and preferred alternation
group, the anti-repetition pick draws a member of the spec's pool (the
candidates used fewer than 2 times in the 10 most recent plays, or all
candidates when none qualifies), and the code's weights over that pool are
exactly the spec's max(1, 3 - recentUse), with the 1.5x preferred-group
multiplier. -/
theorem C2_pick_follows_spec (plays : List (String × String))
    (candidates : List MotionDef) (prefer : Option String) (r : ℚ)
    (hne : candidates ≠ []) :
    ∃ m, (historyOfPlays plays).pickWithRotation candidates prefer r = some m ∧
      m ∈ specPool (plays.map Prod.fst) candidates ∧
      (specPool (plays.map Prod.fst) candidates).map
          ((historyOfPlays plays).weightOf prefer) =
        (specPool (plays.map Prod.fst) candidates).map
          (specWeight (plays.map Prod.fst) prefer) := by
  have hfilter : candidates.filter
      (fun m => (historyOfPlays plays).recentCount m.id < MAX_SAME_MOTION_USES) =
      specEligible (plays.map Prod.fst) candidates := by
    rw [specEligible]
    congr 1
    funext m
    rw [recentCount_eq_specRecentUse]
    rfl
  obtain ⟨m, hm, hmem⟩ := pickWithRotation_mem (historyOfPlays plays) candidates prefer r hne
  refine ⟨m, hm, ?_, ?_⟩
  · rw [hfilter] at hmem
    rw [specPool]
    split
    case isTrue he => rwa [he, List.length_nil, if_neg (by omega)] at hmem
    case isFalse he =>
      rwa [if_pos (by
        rcases Nat.eq_zero_or_pos (specEligible (plays.map Prod.fst) candidates).length
          with h0 | h0
        · exact absurd (List.length_eq_zero.mp h0) he
        · exact h0)] at hmem
  · apply List.map_congr_left
    intro m' _
    exact weightOf_eq_specWeight plays prefer m'

/-- C2 witness: one candidate, an empty history. -/
theorem C2_pick_follows_spec_witness :
    ∃ m, (historyOfPlays []).pickWithRotation [idleA] none 0 = some m ∧
      m ∈ specPool ([] : List String) [idleA] ∧
      (specPool ([] : List String) [idleA]).map ((historyOfPlays []).weightOf none) =
        (specPool ([] : List String) [idleA]).map (specWeight ([] : List String) none) :=
  C2_pick_follows_spec [] [idleA] none 0 (by simp)

/-! ## C3: the anti-repetition guarantee and its failure under the
all-candidates fallback -/

/-- C3 counterexample: thirty consecutive idle selections over the 3-clip
pool, with the random draws of badDraws, leave a play trace in which clip
idle_a occurs more than twice (four times) inside one sliding window of 10
consecutive plays: the no-3-in-10 property fails for this outcome of the
draws. -/
theorem C3_three_in_ten_window_reachable :
    windowViolation (idleRun lib3 (fun _ => true) schedInit badDraws).trace = true := by
  have h1 : playEmotionIdleSim lib3 (fun _ => true)
      schedInit 0 0 =
      ⟨⟨["idle_a"], [("idle_a", ["idle_a"])]⟩, some "idle_a", ["idle_a"]⟩ := by
    norm_num +decide [playEmotionIdleSim, playLoopMotionSim, lib3, idleA, idleB, idleC,
    MotionHistory.pickWithRotation, MotionHistory.drawWeighted, MotionHistory.weightOf,
    MotionHistory.recentCount, MotionHistory.record, MotionHistory.empty,
    MotionHistory.lookupGroup, MotionHistory.setGroup, MotionHistory.getNextAlt,
    MAX_SAME_MOTION_USES, MAX_HISTORY, qmax, schedInit]
  have h2 : playEmotionIdleSim lib3 (fun _ => true)
      ⟨⟨["idle_a"], [("idle_a", ["idle_a"])]⟩, some "idle_a", ["idle_a"]⟩ 3 0 =
      ⟨⟨["idle_a", "idle_b"], [("idle_a", ["idle_a"]), ("idle_b", ["idle_b"])]⟩, some "idle_b", ["idle_a", "idle_b"]⟩ := by
    norm_num +decide [playEmotionIdleSim, playLoopMotionSim, lib3, idleA, idleB, idleC,
    MotionHistory.pickWithRotation, MotionHistory.drawWeighted, MotionHistory.weightOf,
    MotionHistory.recentCount, MotionHistory.record, MotionHistory.empty,
    MotionHistory.lookupGroup, MotionHistory.setGroup, MotionHistory.getNextAlt,
    MAX_SAME_MOTION_USES, MAX_HISTORY, qmax, schedInit]
  have h3 : playEmotionIdleSim lib3 (fun _ => true)
      ⟨⟨["idle_a", "idle_b"], [("idle_a", ["idle_a"]), ("idle_b", ["idle_b"])]⟩, some "idle_b", ["idle_a", "idle_b"]⟩ 0 0 =
      ⟨⟨["idle_a", "idle_b", "idle_a"], [("idle_a", ["idle_a", "idle_a"]), ("idle_b", ["idle_b"])]⟩, some "idle_a", ["idle_a", "idle_b", "idle_a"]⟩ := by
    norm_num +decide [playEmotionIdleSim, playLoopMotionSim, lib3, idleA, idleB, idleC,
    MotionHistory.pickWithRotation, MotionHistory.drawWeighted, MotionHistory.weightOf,
    MotionHistory.recentCount, MotionHistory.record, MotionHistory.empty,
    MotionHistory.lookupGroup, MotionHistory.setGroup, MotionHistory.getNextAlt,
    MAX_SAME_MOTION_USES, MAX_HISTORY, qmax, schedInit]
  have h4 : playEmotionIdleSim lib3 (fun _ => true)
      ⟨⟨["idle_a", "idle_b", "idle_a"], [("idle_a", ["idle_a", "idle_a"]), ("idle_b", ["idle_b"])]⟩, some "idle_a", ["idle_a", "idle_b", "idle_a"]⟩ 3 0 =
      ⟨⟨["idle_a", "idle_b", "idle_a", "idle_c"], [("idle_a", ["idle_a", "idle_a"]), ("idle_b", ["idle_b"]), ("idle_c", ["idle_c"])]⟩, some "idle_c", ["idle_a", "idle_b", "idle_a", "idle_c"]⟩ := by
    norm_num +decide [playEmotionIdleSim, playLoopMotionSim, lib3, idleA, idleB, idleC,
    MotionHistory.pickWithRotation, MotionHistory.drawWeighted, MotionHistory.weightOf,
    MotionHistory.recentCount, MotionHistory.record, MotionHistory.empty,
    MotionHistory.lookupGroup, MotionHistory.setGroup, MotionHistory.getNextAlt,
    MAX_SAME_MOTION_USES, MAX_HISTORY, qmax, schedInit]
  have h5 : playEmotionIdleSim lib3 (fun _ => true)
      ⟨⟨["idle_a", "idle_b", "idle_a", "idle_c"], [("idle_a", ["idle_a", "idle_a"]), ("idle_b", ["idle_b"]), ("idle_c", ["idle_c"])]⟩, some "idle_c", ["idle_a", "idle_b", "idle_a", "idle_c"]⟩ 0 0 =
      ⟨⟨["idle_a", "idle_b", "idle_a", "idle_c", "idle_b"], [("idle_a", ["idle_a", "idle_a"]), ("idle_b", ["idle_b", "idle_b"]), ("idle_c", ["idle_c"])]⟩, some "idle_b", ["idle_a", "idle_b", "idle_a", "idle_c", "idle_b"]⟩ := by
    norm_num +decide [playEmotionIdleSim, playLoopMotionSim, lib3, idleA, idleB, idleC,
    MotionHistory.pickWithRotation, MotionHistory.drawWeighted, MotionHistory.weightOf,
    MotionHistory.recentCount, MotionHistory.record, MotionHistory.empty,
    MotionHistory.lookupGroup, MotionHistory.setGroup, MotionHistory.getNextAlt,
    MAX_SAME_MOTION_USES, MAX_HISTORY, qmax, schedInit]
  have h6 : playEmotionIdleSim lib3 (fun _ => true)
      ⟨⟨["idle_a", "idle_b", "idle_a", "idle_c", "idle_b"], [("idle_a", ["idle_a", "idle_a"]), ("idle_b", ["idle_b", "idle_b"]), ("idle_c", ["idle_c"])]⟩, some "idle_b", ["idle_a", "idle_b", "idle_a", "idle_c", "idle_b"]⟩ 0 0 =
      ⟨⟨["idle_a", "idle_b", "idle_a", "idle_c", "idle_b", "idle_c"], [("idle_a", ["idle_a", "idle_a"]), ("idle_b", ["idle_b", "idle_b"]), ("idle_c", ["idle_c", "idle_c"])]⟩, some "idle_c", ["idle_a", "idle_b", "idle_a", "idle_c", "idle_b", "idle_c"]⟩ := by
    norm_num +decide [playEmotionIdleSim, playLoopMotionSim, lib3, idleA, idleB, idleC,
    MotionHistory.pickWithRotation, MotionHistory.drawWeighted, MotionHistory.weightOf,
    MotionHistory.recentCount, MotionHistory.record, MotionHistory.empty,
    MotionHistory.lookupGroup, MotionHistory.setGroup, MotionHistory.getNextAlt,
    MAX_SAME_MOTION_USES, MAX_HISTORY, qmax, schedInit]
  have h7 : playEmotionIdleSim lib3 (fun _ => true)
      ⟨⟨["idle_a", "idle_b", "idle_a", "idle_c", "idle_b", "idle_c"], [("idle_a", ["idle_a", "idle_a"]), ("idle_b", ["idle_b", "idle_b"]), ("idle_c", ["idle_c", "idle_c"])]⟩, some "idle_c", ["idle_a", "idle_b", "idle_a", "idle_c", "idle_b", "idle_c"]⟩ 0 0 =
      ⟨⟨["idle_a", "idle_b", "idle_a", "idle_c", "idle_b", "idle_c", "idle_a"], [("idle_a", ["idle_a", "idle_a", "idle_a"]), ("idle_b", ["idle_b", "idle_b"]), ("idle_c", ["idle_c", "idle_c"])]⟩, some "idle_a", ["idle_a", "idle_b", "idle_a", "idle_c", "idle_b", "idle_c", "idle_a"]⟩ := by
    norm_num +decide [playEmotionIdleSim, playLoopMotionSim, lib3, idleA, idleB, idleC,
    MotionHistory.pickWithRotation, MotionHistory.drawWeighted, MotionHistory.weightOf,
    MotionHistory.recentCount, MotionHistory.record, MotionHistory.empty,
    MotionHistory.lookupGroup, MotionHistory.setGroup, MotionHistory.getNextAlt,
    MAX_SAME_MOTION_USES, MAX_HISTORY, qmax, schedInit]
  have h8 : playEmotionIdleSim lib3 (fun _ => true)
      ⟨⟨["idle_a", "idle_b", "idle_a", "idle_c", "idle_b", "idle_c", "idle_a"], [("idle_a", ["idle_a", "idle_a", "idle_a"]), ("idle_b", ["idle_b", "idle_b"]), ("idle_c", ["idle_c", "idle_c"])]⟩, some "idle_a", ["idle_a", "idle_b", "idle_a", "idle_c", "idle_b", "idle_c", "idle_a"]⟩ (3 / 2) 0 =
      ⟨⟨["idle_a", "idle_b", "idle_a", "idle_c", "idle_b", "idle_c", "idle_a", "idle_b"], [("idle_a", ["idle_a", "idle_a", "idle_a"]), ("idle_b", ["idle_b", "idle_b", "idle_b"]), ("idle_c", ["idle_c", "idle_c"])]⟩, some "idle_b", ["idle_a", "idle_b", "idle_a", "idle_c", "idle_b", "idle_c", "idle_a", "idle_b"]⟩ := by
    norm_num +decide [playEmotionIdleSim, playLoopMotionSim, lib3, idleA, idleB, idleC,
    MotionHistory.pickWithRotation, MotionHistory.drawWeighted, MotionHistory.weightOf,
    MotionHistory.recentCount, MotionHistory.record, MotionHistory.empty,
    MotionHistory.lookupGroup, MotionHistory.setGroup, MotionHistory.getNextAlt,
    MAX_SAME_MOTION_USES, MAX_HISTORY, qmax, schedInit]
  have h9 : playEmotionIdleSim lib3 (fun _ => true)
      ⟨⟨["idle_a", "idle_b", "idle_a", "idle_c", "idle_b", "idle_c", "idle_a", "idle_b"], [("idle_a", ["idle_a", "idle_a", "idle_a"]), ("idle_b", ["idle_b", "idle_b", "idle_b"]), ("idle_c", ["idle_c", "idle_c"])]⟩, some "idle_b", ["idle_a", "idle_b", "idle_a", "idle_c", "idle_b", "idle_c", "idle_a", "idle_b"]⟩ (5 / 2) 0 =
      ⟨⟨["idle_a", "idle_b", "idle_a", "idle_c", "idle_b", "idle_c", "idle_a", "idle_b", "idle_c"], [("idle_a", ["idle_a", "idle_a", "idle_a"]), ("idle_b", ["idle_b", "idle_b", "idle_b"]), ("idle_c", ["idle_c", "idle_c", "idle_c"])]⟩, some "idle_c", ["idle_a", "idle_b", "idle_a", "idle_c", "idle_b", "idle_c", "idle_a", "idle_b", "idle_c"]⟩ := by
    norm_num +decide [playEmotionIdleSim, playLoopMotionSim, lib3, idleA, idleB, idleC,
    MotionHistory.pickWithRotation, MotionHistory.drawWeighted, MotionHistory.weightOf,
    MotionHistory.recentCount, MotionHistory.record, MotionHistory.empty,
    MotionHistory.lookupGroup, MotionHistory.setGroup, MotionHistory.getNextAlt,
    MAX_SAME_MOTION_USES, MAX_HISTORY, qmax, schedInit]
  have h10 : playEmotionIdleSim lib3 (fun _ => true)
      ⟨⟨["idle_a", "idle_b", "idle_a", "idle_c", "idle_b", "idle_c", "idle_a", "idle_b", "idle_c"], [("idle_a", ["idle_a", "idle_a", "idle_a"]), ("idle_b", ["idle_b", "idle_b", "idle_b"]), ("idle_c", ["idle_c", "idle_c", "idle_c"])]⟩, some "idle_c", ["idle_a", "idle_b", "idle_a", "idle_c", "idle_b", "idle_c", "idle_a", "idle_b", "idle_c"]⟩ 0 0 =
      ⟨⟨["idle_a", "idle_b", "idle_a", "idle_c", "idle_b", "idle_c", "idle_a", "idle_b", "idle_c", "idle_a"], [("idle_a", ["idle_a", "idle_a", "idle_a", "idle_a"]), ("idle_b", ["idle_b", "idle_b", "idle_b"]), ("idle_c", ["idle_c", "idle_c", "idle_c"])]⟩, some "idle_a", ["idle_a", "idle_b", "idle_a", "idle_c", "idle_b", "idle_c", "idle_a", "idle_b", "idle_c", "idle_a"]⟩ := by
    norm_num +decide [playEmotionIdleSim, playLoopMotionSim, lib3, idleA, idleB, idleC,
    MotionHistory.pickWithRotation, MotionHistory.drawWeighted, MotionHistory.weightOf,
    MotionHistory.recentCount, MotionHistory.record, MotionHistory.empty,
    MotionHistory.lookupGroup, MotionHistory.setGroup, MotionHistory.getNextAlt,
    MAX_SAME_MOTION_USES, MAX_HISTORY, qmax, schedInit]
  have h11 : playEmotionIdleSim lib3 (fun _ => true)
      ⟨⟨["idle_a", "idle_b", "idle_a", "idle_c", "idle_b", "idle_c", "idle_a", "idle_b", "idle_c", "idle_a"], [("idle_a", ["idle_a", "idle_a", "idle_a", "idle_a"]), ("idle_b", ["idle_b", "idle_b", "idle_b"]), ("idle_c", ["idle_c", "idle_c", "idle_c"])]⟩, some "idle_a", ["idle_a", "idle_b", "idle_a", "idle_c", "idle_b", "idle_c", "idle_a", "idle_b", "idle_c", "idle_a"]⟩ 0 0 =
      ⟨⟨["idle_a", "idle_b", "idle_a", "idle_c", "idle_b", "idle_c", "idle_a", "idle_b", "idle_c", "idle_a"], [("idle_a", ["idle_a", "idle_a", "idle_a", "idle_a"]), ("idle_b", ["idle_b", "idle_b", "idle_b"]), ("idle_c", ["idle_c", "idle_c", "idle_c"])]⟩, some "idle_a", ["idle_a", "idle_b", "idle_a", "idle_c", "idle_b", "idle_c", "idle_a", "idle_b", "idle_c", "idle_a"]⟩ := by
    norm_num +decide [playEmotionIdleSim, playLoopMotionSim, lib3, idleA, idleB, idleC,
    MotionHistory.pickWithRotation, MotionHistory.drawWeighted, MotionHistory.weightOf,
    MotionHistory.recentCount, MotionHistory.record, MotionHistory.empty,
    MotionHistory.lookupGroup, MotionHistory.setGroup, MotionHistory.getNextAlt,
    MAX_SAME_MOTION_USES, MAX_HISTORY, qmax, schedInit]
  have hrun : idleRun lib3 (fun _ => true) schedInit badDraws =
      ⟨⟨["idle_a", "idle_b", "idle_a", "idle_c", "idle_b", "idle_c", "idle_a", "idle_b", "idle_c", "idle_a"], [("idle_a", ["idle_a", "idle_a", "idle_a", "idle_a"]), ("idle_b", ["idle_b", "idle_b", "idle_b"]), ("idle_c", ["idle_c", "idle_c", "idle_c"])]⟩, some "idle_a", ["idle_a", "idle_b", "idle_a", "idle_c", "idle_b", "idle_c", "idle_a", "idle_b", "idle_c", "idle_a"]⟩ := by
    simp only [idleRun, badDraws, List.replicate, List.cons_append, List.nil_append,
      List.foldl_cons, List.foldl_nil,
      h1, h2, h3, h4, h5, h6, h7, h8, h9, h10, h11]
  rw [hrun]
  simp +decide [windowViolation]

/-- C3 (amended): whenever at least one candidate has been used fewer than
MAX_SAME_MOTION_USES (= 2) times in the recorded recent plays, the
anti-repetition pick returns such a candidate.  Only when no candidate is
eligible does the pool fall back to the full candidate list, which is how
the 3-in-10 violation of the counterexample arises. -/
theorem C3_eligible_pick_has_low_recent_count (h : MotionHistory)
    (candidates : List MotionDef) (prefer : Option String) (r : ℚ) (m : MotionDef)
    (hne : candidates.filter (fun m => h.recentCount m.id < MAX_SAME_MOTION_USES) ≠ [])
    (hp : h.pickWithRotation candidates prefer r = some m) :
    h.recentCount m.id < MAX_SAME_MOTION_USES := by
  have hcne : candidates ≠ [] := by
    intro hc
    rw [hc] at hne
    simp at hne
  obtain ⟨m', hm', hmem⟩ := pickWithRotation_mem h candidates prefer r hcne
  have hlen : (candidates.filter
      (fun m => h.recentCount m.id < MAX_SAME_MOTION_USES)).length > 0 :=
    List.length_pos.mpr hne
  rw [if_pos hlen] at hmem
  have heq : m' = m := Option.some_inj.mp (hm'.symm.trans hp)
  subst heq
  have := (List.mem_filter.mp hmem).2
  exact of_decide_eq_true this

theorem C3_eligible_pick_has_low_recent_count_witness :
    MotionHistory.empty.recentCount idleA.id < MAX_SAME_MOTION_USES :=
  C3_eligible_pick_has_low_recent_count MotionHistory.empty [idleA] none 0 idleA
    (by norm_num +decide [MotionHistory.recentCount, MotionHistory.empty, idleA,
      MAX_SAME_MOTION_USES])
    (by norm_num +decide [MotionHistory.pickWithRotation, MotionHistory.drawWeighted,
      MotionHistory.weightOf, MotionHistory.recentCount, MotionHistory.empty, idleA,
      MAX_SAME_MOTION_USES, qmax])

/-- C4: starting a one-shot while a loop action is active floors the loop
action's effective weight at 0.2, fades out the previously active one-shot
at half the fade, and starts the new one-shot running at full weight; the
natural-completion handler fades the one-shot out (0.4s), restores the loop
action's weight to exactly 1 while changing nothing else of that action,
clears the one-shot slot, and leaves every other action and every other
piece of playback state unchanged. -/
theorem C4_one_shot_floors_loop_and_completion_restores
    (st : AnimationManager) (clip : Clip) (fade : ℚ) (l prevShot : String)
    (hm : st.mixerBound = true)
    (hl : st.activeLoopActionId = some l)
    (hs : st.activeShotActionId = some prevShot)
    (hlc : l ≠ clip.name) (hlp : prevShot ≠ l) (hpc : prevShot ≠ clip.name) :
    ((playOneShot st clip fade).actions l).effectiveWeight = 1 / 5 ∧
    ((playOneShot st clip fade).actions prevShot).fadingOut = some (fade * (1 / 2)) ∧
    ((playOneShot st clip fade).actions clip.name).effectiveWeight = 1 ∧
    ((playOneShot st clip fade).actions clip.name).running = true ∧
    (onAnimationFinished (playOneShot st clip fade) clip.name).actions clip.name =
      { (playOneShot st clip fade).actions clip.name with
          fadingOut := some (2 / 5), running := false } ∧
    (onAnimationFinished (playOneShot st clip fade) clip.name).actions l =
      { (playOneShot st clip fade).actions l with effectiveWeight := 1 } ∧
    (onAnimationFinished (playOneShot st clip fade) clip.name).activeShotActionId = none ∧
    (∀ n, n ≠ clip.name → n ≠ l →
      (onAnimationFinished (playOneShot st clip fade) clip.name).actions n =
        (playOneShot st clip fade).actions n) ∧
    (onAnimationFinished (playOneShot st clip fade) clip.name).activeLoopActionId =
      (playOneShot st clip fade).activeLoopActionId ∧
    (onAnimationFinished (playOneShot st clip fade) clip.name).activeLoopMotionId =
      (playOneShot st clip fade).activeLoopMotionId ∧
    (onAnimationFinished (playOneShot st clip fade) clip.name).motionHistory =
      (playOneShot st clip fade).motionHistory := by
  simp only [playOneShot, onAnimationFinished, AnimationManager.updateAction,
    ActionState.reset, hm, hl, hs]
  simp [hlc, hlp, hpc, Ne.symm hlc, Ne.symm hlp, Ne.symm hpc]
  intro n hn1 hn2
  simp [hn1, hn2]

theorem C4_one_shot_floors_loop_and_completion_restores_witness :
    ((playOneShot sampleOneShotManager ⟨"wave", 1, []⟩ (1 / 2)).actions
      "idle_happy").effectiveWeight = 1 / 5 :=
  (C4_one_shot_floors_loop_and_completion_restores sampleOneShotManager ⟨"wave", 1, []⟩
    (1 / 2) "idle_happy" "nod" rfl rfl rfl (by decide) (by decide) (by decide)).1

/-- C7: the blink controller cycles waiting → closing → closed → opening →
waiting.  An expiring waiting countdown enters closing with fresh phase
durations: close 60–100 ms, hold 20–60 ms, open 80–140 ms; a non-expired
countdown just ticks and writes nothing.  Closing ramps the weight by the
ease-in quadratic t² and hands over to closed at t = 1; closed holds
weight 1 then hands over to opening; opening ramps the weight by the
ease-out 1 − t(2 − t) and, when done, writes 0 and returns to waiting
with a countdown that is 150–250 ms with 15% probability (double-blink),
otherwise the 2.5–6 s base, extended by a 3–7 s stare pause with 10%
probability. -/
theorem C7_blink_state_machine (delta : ℚ) (rnd : BlinkRands) (s : BlinkState)
    (hd : 0 < delta) (hr : randsInRange rnd) :
    (s.blinkPhase = "waiting" → s.blinkTimer - delta ≤ 0 →
      (updateBlink delta rnd s).1.blinkPhase = "closing" ∧
      (updateBlink delta rnd s).2 = none ∧
      (3 / 50 ≤ (updateBlink delta rnd s).1.blinkCloseTime ∧
        (updateBlink delta rnd s).1.blinkCloseTime < 1 / 10) ∧
      (1 / 50 ≤ (updateBlink delta rnd s).1.blinkHoldTime ∧
        (updateBlink delta rnd s).1.blinkHoldTime < 3 / 50) ∧
      (2 / 25 ≤ (updateBlink delta rnd s).1.blinkOpenTime ∧
        (updateBlink delta rnd s).1.blinkOpenTime < 7 / 50)) ∧
    (s.blinkPhase = "waiting" → ¬(s.blinkTimer - delta ≤ 0) →
      (updateBlink delta rnd s).1.blinkPhase = "waiting" ∧
      (updateBlink delta rnd s).2 = none) ∧
    (s.blinkPhase = "closing" → ¬(1 ≤ s.blinkT + delta / s.blinkCloseTime) →
      (updateBlink delta rnd s).1.blinkPhase = "closing" ∧
      (updateBlink delta rnd s).2 =
        some (easeInQuad (s.blinkT + delta / s.blinkCloseTime))) ∧
    (s.blinkPhase = "closing" → 1 ≤ s.blinkT + delta / s.blinkCloseTime →
      (updateBlink delta rnd s).1.blinkPhase = "closed" ∧
      (updateBlink delta rnd s).2 = some 1) ∧
    (s.blinkPhase = "closed" →
      (updateBlink delta rnd s).2 = some 1 ∧
      (if 1 ≤ s.blinkT + delta / s.blinkHoldTime
        then (updateBlink delta rnd s).1.blinkPhase = "opening"
        else (updateBlink delta rnd s).1.blinkPhase = "closed")) ∧
    (s.blinkPhase = "opening" → ¬(1 ≤ s.blinkT + delta / s.blinkOpenTime) →
      (updateBlink delta rnd s).1.blinkPhase = "opening" ∧
      (updateBlink delta rnd s).2 =
        some (1 - easeOutQuad (s.blinkT + delta / s.blinkOpenTime))) ∧
    (s.blinkPhase = "opening" → 1 ≤ s.blinkT + delta / s.blinkOpenTime →
      (updateBlink delta rnd s).1.blinkPhase = "waiting" ∧
      (updateBlink delta rnd s).2 = some 0 ∧
      (rnd.rDoubleP < 3 / 20 →
        3 / 20 ≤ (updateBlink delta rnd s).1.blinkTimer ∧
        (updateBlink delta rnd s).1.blinkTimer < 1 / 4) ∧
      (¬(rnd.rDoubleP < 3 / 20) → rnd.rStareP < 1 / 10 →
        ∃ base ext, (updateBlink delta rnd s).1.blinkTimer = base + ext ∧
          5 / 2 ≤ base ∧ base < 6 ∧ 3 ≤ ext ∧ ext < 7) ∧
      (¬(rnd.rDoubleP < 3 / 20) → ¬(rnd.rStareP < 1 / 10) →
        5 / 2 ≤ (updateBlink delta rnd s).1.blinkTimer ∧
        (updateBlink delta rnd s).1.blinkTimer < 6)) := by
  obtain ⟨⟨hc0, hc1⟩, ⟨hh0, hh1⟩, ⟨ho0, ho1⟩, ⟨hb0, hb1⟩, ⟨hsp0, hsp1⟩,
    ⟨hst0, hst1⟩, ⟨hdp0, hdp1⟩, ⟨hdb0, hdb1⟩⟩ := hr
  refine ⟨?_, ?_, ?_, ?_, ?_, ?_, ?_⟩
  · intro hp ht
    simp +decide [updateBlink, hp, ht]
    refine ⟨⟨?_, ?_⟩, ⟨?_, ?_⟩, ?_, ?_⟩ <;> nlinarith
  · intro hp ht
    simp +decide [updateBlink, hp, ht]
  · intro hp ht
    simp +decide [updateBlink, hp, ht]
  · intro hp ht
    simp +decide [updateBlink, hp, ht]
  · intro hp
    by_cases h1 : 1 ≤ s.blinkT + delta / s.blinkHoldTime
    · simp +decide [updateBlink, hp, h1]
    · simp +decide [updateBlink, hp, h1]
  · intro hp ht
    simp +decide [updateBlink, hp, ht]
  · intro hp ht
    refine ⟨?_, ?_, ?_, ?_, ?_⟩
    · simp +decide [updateBlink, hp, ht]
    · simp +decide [updateBlink, hp, ht]
    · intro hdbl
      simp +decide [updateBlink, hp, ht, hdbl, nextBlinkInterval]
      constructor <;> nlinarith
    · intro hdbl hstare
      simp +decide [updateBlink, hp, ht, hdbl, nextBlinkInterval]
      split
      case isTrue h =>
        exact ⟨5 / 2 + rnd.rBase * (7 / 2), 3 + rnd.rStare * 4, by ring,
          by nlinarith, by nlinarith, by nlinarith, by nlinarith⟩
      case isFalse h => exact absurd hstare (fun hc => h (by linarith))
    · intro hdbl hstare
      simp +decide [updateBlink, hp, ht, hdbl, nextBlinkInterval]
      split
      case isTrue h => exact absurd (show rnd.rStareP < 1 / 10 by linarith) hstare
      case isFalse h => constructor <;> nlinarith

theorem C7_blink_state_machine_witness :
    (updateBlink (1 / 100) ⟨0, 0, 0, 0, 1 / 2, 0, 1 / 2, 0⟩
      ⟨"waiting", 1 / 200, 0, 2 / 25, 1 / 25, 1 / 10⟩).1.blinkPhase = "closing" :=
  ((C7_blink_state_machine (1 / 100) ⟨0, 0, 0, 0, 1 / 2, 0, 1 / 2, 0⟩
      ⟨"waiting", 1 / 200, 0, 2 / 25, 1 / 25, 1 / 10⟩ (by norm_num)
      (by norm_num [randsInRange])).1 rfl (by norm_num)).1

/-! ## C8: jelly spring settling -/

theorem qabs_eq_abs (a : ℚ) : qabs a = |a| := by
  rw [qabs]
  split
  case isTrue h => exact (abs_of_neg h).symm
  case isFalse h => exact (abs_of_nonneg (not_lt.mp h)).symm

theorem sStep_quiescent (dt : ℚ) (s : SpringState) (h : s.quiescent) :
    sStep dt s = s ∧ (stepSpring dt s).2 = false := by
  obtain ⟨ha, -, -, -⟩ := h
  rw [sStep, stepSpring, if_pos ha]
  exact ⟨rfl, rfl⟩

theorem sIter_quiescent (dt : ℚ) (s : SpringState) (h : s.quiescent) :
    ∀ n, sIter dt n s = s := by
  intro n
  induction n with
  | zero => rfl
  | succ n ih =>
    show sIter dt n (sStep dt s) = s
    rw [(sStep_quiescent dt s h).1, ih]

theorem sIter_add (dt : ℚ) : ∀ (a b : ℕ) (s : SpringState),
    sIter dt (a + b) s = sIter dt b (sIter dt a s) := by
  intro a
  induction a with
  | zero => intro b s; rw [Nat.zero_add]; rfl
  | succ a ih =>
    intro b s
    show sIter dt (a + 1 + b) s = sIter dt b (sIter dt a (sStep dt s))
    rw [show a + 1 + b = (a + b) + 1 by omega]
    show sIter dt (a + b) (sStep dt s) = sIter dt b (sIter dt a (sStep dt s))
    exact ih b (sStep dt s)

theorem stepSpring_integrate (dt : ℚ) (s : SpringState)
    (ha : s.activated = true) (hdl : ¬ 0 < s.delayLeft) :
    stepSpring dt s =
      (if jellyEpsilon ^ 2 < (newVel dt s).normSq ∨
          jellyEpsilon ^ 2 < (newOff dt s).normSq then
        ({ s with
            velocity := newVel dt s
            offset := newOff dt s
            scale := ⟨1 + (newOff dt s).x, 1 + (newOff dt s).y, 1 + (newOff dt s).z⟩ },
         true)
      else
        ({ s with
            velocity := Vec3.zero
            offset := Vec3.zero
            activated := false
            scale := ⟨1, 1, 1⟩ }, false)) := by
  rw [stepSpring, if_neg (by simp [ha]), if_neg hdl]
  rfl

theorem sStep_drain (dt : ℚ) (s : SpringState) (ha : s.activated = true)
    (hdl : 0 < s.delayLeft) :
    sStep dt s = { s with delayLeft := s.delayLeft - dt } ∧
      (stepSpring dt s).2 = true := by
  rw [sStep, stepSpring, if_neg (by simp [ha]), if_pos hdl]
  exact ⟨rfl, rfl⟩

theorem sStep_or (dt : ℚ) (s : SpringState) (ha : s.activated = true)
    (hdl : ¬ 0 < s.delayLeft) :
    (sStep dt s).quiescent ∨
    (sStep dt s = { s with
        velocity := newVel dt s
        offset := newOff dt s
        scale := ⟨1 + (newOff dt s).x, 1 + (newOff dt s).y, 1 + (newOff dt s).z⟩ } ∧
      (jellyEpsilon ^ 2 < (newVel dt s).normSq ∨
        jellyEpsilon ^ 2 < (newOff dt s).normSq)) := by
  rw [sStep, stepSpring_integrate dt s ha hdl]
  by_cases hc : jellyEpsilon ^ 2 < (newVel dt s).normSq ∨
      jellyEpsilon ^ 2 < (newOff dt s).normSq
  · right
    rw [if_pos hc]
    exact ⟨rfl, hc⟩
  · left
    rw [if_neg hc]
    exact ⟨rfl, rfl, rfl, rfl⟩

theorem lyap_step (dt x v : ℚ) :
    lyap dt (x + dt * compV dt x v) (compV dt x v) = (1 - 8 * dt) * lyap dt x v := by
  simp only [lyap, compV, jellyTension, jellyDamping]
  ring

theorem lyap_clamp (dt c v : ℚ) (hdt : 0 < dt) (hdt2 : dt ≤ 1 / 20)
    (hv : |v| ≤ 14) :
    lyap dt (clampQ c (-jellyMaxDisplacement) jellyMaxDisplacement) v ≤ lyap dt c v := by
  obtain ⟨hv1, hv2⟩ := abs_le.mp hv
  have hp1 : (0:ℚ) ≤ ((4 - 150 * dt) + 4) * (v + 14) :=
    mul_nonneg (by linarith) (by linarith)
  have hp2 : (0:ℚ) ≤ ((4 - 150 * dt) + 4) * (14 - v) :=
    mul_nonneg (by linarith) (by linarith)
  have hp3 : (0:ℚ) ≤ (4 - (4 - 150 * dt)) * (v + 14) :=
    mul_nonneg (by linarith) (by linarith)
  have hp4 : (0:ℚ) ≤ (4 - (4 - 150 * dt)) * (14 - v) :=
    mul_nonneg (by linarith) (by linarith)
  rw [clampQ, qmax, qmin, jellyMaxDisplacement, lyap, lyap]
  split_ifs with h1 h2 h3
  · linarith
  · nlinarith
  · nlinarith
  · nlinarith

theorem lyap_lower (dt x v : ℚ) (hdt : 0 ≤ dt) (hdt2 : dt ≤ 1 / 20) :
    (1 / 2) * (x ^ 2 + v ^ 2) ≤ lyap dt x v := by
  rw [lyap]
  nlinarith [sq_nonneg (599 * x + 2 * (4 - 150 * dt) * v), sq_nonneg v, sq_nonneg x,
    mul_nonneg (mul_nonneg hdt (by linarith : (0:ℚ) ≤ 1 / 20 - dt)) (sq_nonneg v)]

theorem compV_le (dt x v : ℚ) (hdt : 0 < dt) (hdt2 : dt ≤ 1 / 20)
    (hx : |x| ≤ 7 / 20) :
    (|v| ≤ 14 → |compV dt x v| ≤ 14 - 7 * dt) ∧
    (14 ≤ |v| → |compV dt x v| ≤ |v| - 7 * dt) := by
  obtain ⟨hx1, hx2⟩ := abs_le.mp hx
  have hv1 := neg_abs_le v
  have hv2 := le_abs_self v
  have h18 : (0:ℚ) ≤ 1 - 8 * dt := by linarith
  have hq1 : (0:ℚ) ≤ (1 - 8 * dt) * (|v| - v) := mul_nonneg h18 (by linarith)
  have hq2 : (0:ℚ) ≤ (1 - 8 * dt) * (|v| + v) := mul_nonneg h18 (by linarith)
  have hq3 : (0:ℚ) ≤ dt * (7 / 20 - x) := mul_nonneg hdt.le (by linarith)
  have hq4 : (0:ℚ) ≤ dt * (x + 7 / 20) := mul_nonneg hdt.le (by linarith)
  constructor
  · intro hv
    have hq5 : (0:ℚ) ≤ (1 - 8 * dt) * (14 - |v|) := mul_nonneg h18 (by linarith)
    rw [abs_le]
    constructor <;> (simp only [compV, jellyTension, jellyDamping]; nlinarith)
  · intro hv
    have hq6 : (0:ℚ) ≤ dt * (|v| - 14) := mul_nonneg hdt.le (by linarith)
    rw [abs_le]
    constructor <;> (simp only [compV, jellyTension, jellyDamping]; nlinarith)

theorem compX_bound (dt x v : ℚ) : |compX dt x v| ≤ 7 / 20 := by
  rw [compX, clampQ, qmax, qmin, jellyMaxDisplacement, abs_le]
  split_ifs <;> constructor <;> linarith

theorem sIter_succ (dt : ℚ) : ∀ (n : ℕ) (s : SpringState),
    sIter dt (n + 1) s = sStep dt (sIter dt n s) := by
  intro n
  induction n with
  | zero => intro s; rfl
  | succ n ih =>
    intro s
    show sIter dt (n + 1) (sStep dt s) = _
    rw [ih (sStep dt s)]
    rfl

theorem nonActQ_sStep (dt : ℚ) (s : SpringState)
    (h : s.activated = false → s.quiescent) :
    (sStep dt s).activated = false → (sStep dt s).quiescent := by
  by_cases ha : s.activated = true
  · by_cases hdl : 0 < s.delayLeft
    · rw [(sStep_drain dt s ha hdl).1]
      intro hfalse
      simp [ha] at hfalse
    · rcases sStep_or dt s ha hdl with hq | ⟨heq, -⟩
      · intro _
        exact hq
      · rw [heq]
        intro hfalse
        simp [ha] at hfalse
  · intro _
    have hq := h (by simpa using ha)
    rw [(sStep_quiescent dt s hq).1]
    exact hq

theorem nonActQ_sIter (dt : ℚ) (s : SpringState)
    (h : s.activated = false → s.quiescent) :
    ∀ n, (sIter dt n s).activated = false → (sIter dt n s).quiescent := by
  intro n
  induction n generalizing s with
  | zero => exact h
  | succ n ih =>
    show (sIter dt n (sStep dt s)).activated = false → _
    exact ih (sStep dt s) (nonActQ_sStep dt s h)

theorem stepFalse_quiescent (dt : ℚ) (t : SpringState)
    (hnq : t.activated = false → t.quiescent)
    (h2 : (stepSpring dt t).2 = false) : (sStep dt t).quiescent := by
  by_cases ha : t.activated = true
  · by_cases hdl : 0 < t.delayLeft
    · rw [(sStep_drain dt t ha hdl).2] at h2
      cases h2
    · rcases sStep_or dt t ha hdl with hq | ⟨-, hcond⟩
      · exact hq
      · rw [stepSpring_integrate dt t ha hdl, if_pos hcond] at h2
        cases h2
  · have hq := hnq (by simpa using ha)
    rw [(sStep_quiescent dt t hq).1]
    exact hq

theorem compV_case (dt x v B : ℚ) (hdt : 0 < dt) (hdt2 : dt ≤ 1 / 20)
    (hx : |x| ≤ 7 / 20) (hvB : |v| ≤ B + 7 * dt) (hB : 14 ≤ B) :
    |compV dt x v| ≤ B := by
  rcases le_or_lt |v| 14 with h | h
  · have := (compV_le dt x v hdt hdt2 hx).1 h
    linarith
  · have := (compV_le dt x v hdt hdt2 hx).2 h.le
    linarith

theorem lyap_comp_step (dt x v : ℚ) (hdt : 0 < dt) (hdt2 : dt ≤ 1 / 20)
    (hx : |x| ≤ 7 / 20) (hv : |v| ≤ 14) :
    lyap dt (compX dt x v) (compV dt x v) ≤ (1 - 8 * dt) * lyap dt x v := by
  have h1 : |compV dt x v| ≤ 14 := by
    have := (compV_le dt x v hdt hdt2 hx).1 hv
    linarith
  have h2 := lyap_clamp dt (x + dt * compV dt x v) (compV dt x v) hdt hdt2 h1
  rw [compX]
  exact le_of_le_of_eq h2 (lyap_step dt x v)

theorem lyapV_step (dt : ℚ) (s : SpringState) (hdt : 0 < dt) (hdt2 : dt ≤ 1 / 20)
    (hox : |s.offset.x| ≤ 7 / 20) (hoy : |s.offset.y| ≤ 7 / 20)
    (hoz : |s.offset.z| ≤ 7 / 20) (hvx : |s.velocity.x| ≤ 14)
    (hvy : |s.velocity.y| ≤ 14) (hvz : |s.velocity.z| ≤ 14) :
    lyapV dt (newOff dt s) (newVel dt s) ≤ (1 - 8 * dt) * lyapV dt s.offset s.velocity := by
  have cx := lyap_comp_step dt s.offset.x s.velocity.x hdt hdt2 hox hvx
  have cy := lyap_comp_step dt s.offset.y s.velocity.y hdt hdt2 hoy hvy
  have cz := lyap_comp_step dt s.offset.z s.velocity.z hdt hdt2 hoz hvz
  have hu : lyapV dt (newOff dt s) (newVel dt s) =
      lyap dt (compX dt s.offset.x s.velocity.x) (compV dt s.offset.x s.velocity.x) +
      lyap dt (compX dt s.offset.y s.velocity.y) (compV dt s.offset.y s.velocity.y) +
      lyap dt (compX dt s.offset.z s.velocity.z) (compV dt s.offset.z s.velocity.z) := rfl
  have hring : (1 - 8 * dt) * lyap dt s.offset.x s.velocity.x +
      (1 - 8 * dt) * lyap dt s.offset.y s.velocity.y +
      (1 - 8 * dt) * lyap dt s.offset.z s.velocity.z =
      (1 - 8 * dt) * (lyap dt s.offset.x s.velocity.x +
        lyap dt s.offset.y s.velocity.y + lyap dt s.offset.z s.velocity.z) := by
    ring
  rw [hu]
  simp only [lyapV]
  rw [← hring]
  exact add_le_add (add_le_add cx cy) cz

theorem lyapV_pos_of_unsettled (dt : ℚ) (o vel : Vec3) (hdt : 0 ≤ dt)
    (hdt2 : dt ≤ 1 / 20)
    (h : jellyEpsilon ^ 2 < vel.normSq ∨ jellyEpsilon ^ 2 < o.normSq) :
    1 / 80000 < lyapV dt o vel := by
  have lx := lyap_lower dt o.x vel.x hdt hdt2
  have ly := lyap_lower dt o.y vel.y hdt hdt2
  have lz := lyap_lower dt o.z vel.z hdt hdt2
  have hW : (1 / 2) * (o.normSq + vel.normSq) ≤ lyapV dt o vel := by
    simp only [lyapV, Vec3.normSq]
    nlinarith [lx, ly, lz]
  have h0o : 0 ≤ o.normSq := by
    simp only [Vec3.normSq]
    nlinarith [mul_self_nonneg o.x, mul_self_nonneg o.y, mul_self_nonneg o.z]
  have h0v : 0 ≤ vel.normSq := by
    simp only [Vec3.normSq]
    nlinarith [mul_self_nonneg vel.x, mul_self_nonneg vel.y, mul_self_nonneg vel.z]
  rcases h with h | h <;> (simp only [jellyEpsilon] at h; nlinarith)

theorem lyapV_nonneg (dt : ℚ) (o vel : Vec3) (hdt : 0 ≤ dt) (hdt2 : dt ≤ 1 / 20) :
    0 ≤ lyapV dt o vel := by
  have lx := lyap_lower dt o.x vel.x hdt hdt2
  have ly := lyap_lower dt o.y vel.y hdt hdt2
  have lz := lyap_lower dt o.z vel.z hdt hdt2
  simp only [lyapV]
  nlinarith [sq_nonneg o.x, sq_nonneg o.y, sq_nonneg o.z,
    sq_nonneg vel.x, sq_nonneg vel.y, sq_nonneg vel.z]

theorem phaseB (dt : ℚ) (hdt : 0 < dt) (hdt2 : dt ≤ 1 / 20) :
    ∀ (n : ℕ) (s : SpringState), s.activated = true → s.delayLeft ≤ 0 → obound s →
    vmaxA s ≤ 14 + n * (7 * dt) →
    (sIter dt n s).quiescent ∨
      ((sIter dt n s).activated = true ∧ (sIter dt n s).delayLeft ≤ 0 ∧
        obound (sIter dt n s) ∧ vmaxA (sIter dt n s) ≤ 14) := by
  intro n
  induction n with
  | zero =>
    intro s ha hdl hob hv
    right
    refine ⟨ha, hdl, hob, ?_⟩
    simpa using hv
  | succ n ih =>
    intro s ha hdl hob hv
    rcases sStep_or dt s ha (not_lt.mpr hdl) with hq | ⟨heq, -⟩
    · left
      show (sIter dt n (sStep dt s)).quiescent
      rw [sIter_quiescent dt _ hq n]
      exact hq
    · obtain ⟨hox, hoy, hoz⟩ := hob
      rw [qabs_eq_abs] at hox hoy hoz
      have hvx : |s.velocity.x| ≤ vmaxA s := le_max_left _ _
      have hvy : |s.velocity.y| ≤ vmaxA s :=
        le_trans (le_max_left _ _) (le_max_right _ _)
      have hvz : |s.velocity.z| ≤ vmaxA s :=
        le_trans (le_max_right _ _) (le_max_right _ _)
      have hB : (14 : ℚ) ≤ 14 + n * (7 * dt) := by
        have : (0:ℚ) ≤ (n : ℚ) * (7 * dt) := by positivity
        linarith
      have hbx : |compV dt s.offset.x s.velocity.x| ≤ 14 + n * (7 * dt) :=
        compV_case dt _ _ _ hdt hdt2 hox (by push_cast at hv ⊢; nlinarith) hB
      have hby : |compV dt s.offset.y s.velocity.y| ≤ 14 + n * (7 * dt) :=
        compV_case dt _ _ _ hdt hdt2 hoy (by push_cast at hv ⊢; nlinarith) hB
      have hbz : |compV dt s.offset.z s.velocity.z| ≤ 14 + n * (7 * dt) :=
        compV_case dt _ _ _ hdt hdt2 hoz (by push_cast at hv ⊢; nlinarith) hB
      have hact2 : (sStep dt s).activated = true := by
        rw [heq]
        exact ha
      have hdl2 : (sStep dt s).delayLeft ≤ 0 := by
        rw [heq]
        exact hdl
      have hob2 : obound (sStep dt s) := by
        rw [heq]
        simp only [obound, newOff]
        refine ⟨?_, ?_, ?_⟩ <;> (rw [qabs_eq_abs]; exact compX_bound dt _ _)
      have hv2 : vmaxA (sStep dt s) ≤ 14 + n * (7 * dt) := by
        rw [heq]
        simp only [vmaxA, newVel]
        exact max_le hbx (max_le hby hbz)
      exact ih (sStep dt s) hact2 hdl2 hob2 hv2

theorem phaseC (dt : ℚ) (hdt : 0 < dt) (hdt2 : dt ≤ 1 / 20) :
    ∀ (n : ℕ) (s : SpringState), s.activated = true → s.delayLeft ≤ 0 → obound s →
    vmaxA s ≤ 14 →
    (sIter dt n s).quiescent ∨
      ((sIter dt n s).activated = true ∧ (sIter dt n s).delayLeft ≤ 0 ∧
        obound (sIter dt n s) ∧ vmaxA (sIter dt n s) ≤ 14 ∧
        lyapV dt (sIter dt n s).offset (sIter dt n s).velocity ≤
          (1 - 8 * dt) ^ n * lyapV dt s.offset s.velocity ∧
        (1 ≤ n → 1 / 80000 < lyapV dt (sIter dt n s).offset (sIter dt n s).velocity)) := by
  intro n
  induction n with
  | zero =>
    intro s ha hdl hob hv
    right
    refine ⟨ha, hdl, hob, hv, ?_, ?_⟩
    · rw [pow_zero, one_mul]
      exact le_rfl
    · intro h
      exact absurd h (by omega)
  | succ n ih =>
    intro s ha hdl hob hv
    rcases sStep_or dt s ha (not_lt.mpr hdl) with hq | ⟨heq, hcond⟩
    · left
      show (sIter dt n (sStep dt s)).quiescent
      rw [sIter_quiescent dt _ hq n]
      exact hq
    · obtain ⟨hox, hoy, hoz⟩ := hob
      rw [qabs_eq_abs] at hox hoy hoz
      have hvx : |s.velocity.x| ≤ 14 := le_trans (le_max_left _ _) hv
      have hvy : |s.velocity.y| ≤ 14 :=
        le_trans (le_trans (le_max_left _ _) (le_max_right _ _)) hv
      have hvz : |s.velocity.z| ≤ 14 :=
        le_trans (le_trans (le_max_right _ _) (le_max_right _ _)) hv
      have hnx : |compV dt s.offset.x s.velocity.x| ≤ 14 - 7 * dt :=
        (compV_le dt _ _ hdt hdt2 hox).1 hvx
      have hny : |compV dt s.offset.y s.velocity.y| ≤ 14 - 7 * dt :=
        (compV_le dt _ _ hdt hdt2 hoy).1 hvy
      have hnz : |compV dt s.offset.z s.velocity.z| ≤ 14 - 7 * dt :=
        (compV_le dt _ _ hdt hdt2 hoz).1 hvz
      have hact2 : (sStep dt s).activated = true := by
        rw [heq]
        exact ha
      have hdl2 : (sStep dt s).delayLeft ≤ 0 := by
        rw [heq]
        exact hdl
      have hob2 : obound (sStep dt s) := by
        rw [heq]
        simp only [obound, newOff]
        refine ⟨?_, ?_, ?_⟩ <;> (rw [qabs_eq_abs]; exact compX_bound dt _ _)
      have hv2 : vmaxA (sStep dt s) ≤ 14 := by
        rw [heq]
        simp only [vmaxA, newVel]
        exact max_le (by linarith) (max_le (by linarith) (by linarith))
      have hW : lyapV dt (sStep dt s).offset (sStep dt s).velocity ≤
          (1 - 8 * dt) * lyapV dt s.offset s.velocity := by
        rw [heq]
        show lyapV dt (newOff dt s) (newVel dt s) ≤ _
        exact lyapV_step dt s hdt hdt2 hox hoy hoz hvx hvy hvz
      have hWpos : 1 / 80000 < lyapV dt (sStep dt s).offset (sStep dt s).velocity := by
        rw [heq]
        show 1 / 80000 < lyapV dt (newOff dt s) (newVel dt s)
        exact lyapV_pos_of_unsettled dt (newOff dt s) (newVel dt s) hdt.le hdt2 hcond
      rcases ih (sStep dt s) hact2 hdl2 hob2 hv2 with hq2 | ⟨h1, h2, h3, h4, h5, h6⟩
      · left
        exact hq2
      · right
        refine ⟨h1, h2, h3, h4, ?_, ?_⟩
        · have hr : (0:ℚ) ≤ (1 - 8 * dt) ^ n := pow_nonneg (by linarith) n
          have hchain := le_trans h5 (mul_le_mul_of_nonneg_left hW hr)
          have hEq : (1 - 8 * dt) ^ n * ((1 - 8 * dt) * lyapV dt s.offset s.velocity) =
              (1 - 8 * dt) ^ (n + 1) * lyapV dt s.offset s.velocity := by
            ring
          rw [hEq] at hchain
          exact hchain
        · intro hge
          rcases Nat.eq_zero_or_pos n with h0 | h0
          · subst h0
            exact hWpos
          · exact h6 h0

theorem springDrain (dt : ℚ) (hdt : 0 < dt) :
    ∀ (k : ℕ) (s : SpringState), s.activated = true → s.delayLeft ≤ k * dt →
    ∃ m, (sIter dt m s).activated = true ∧ (sIter dt m s).delayLeft ≤ 0 ∧
      (sIter dt m s).offset = s.offset ∧ (sIter dt m s).velocity = s.velocity := by
  intro k
  induction k with
  | zero =>
    intro s ha hdl
    exact ⟨0, ha, by simpa using hdl, rfl, rfl⟩
  | succ k ih =>
    intro s ha hdl
    by_cases h0 : 0 < s.delayLeft
    · have hstep := (sStep_drain dt s ha h0).1
      have ha2 : (sStep dt s).activated = true := by
        rw [hstep]
        exact ha
      have hdl2 : (sStep dt s).delayLeft ≤ k * dt := by
        rw [hstep]
        show s.delayLeft - dt ≤ k * dt
        push_cast at hdl ⊢
        nlinarith
      obtain ⟨m, hm1, hm2, hm3, hm4⟩ := ih (sStep dt s) ha2 hdl2
      refine ⟨m + 1, ?_, ?_, ?_, ?_⟩
      · exact hm1
      · exact hm2
      · show (sIter dt m (sStep dt s)).offset = s.offset
        rw [hm3, hstep]
      · show (sIter dt m (sStep dt s)).velocity = s.velocity
        rw [hm4, hstep]
    · exact ⟨0, ha, not_lt.mp h0, rfl, rfl⟩

theorem spring_settles (dt : ℚ) (s : SpringState) (hdt : 0 < dt) (hdt2 : dt ≤ 1 / 20)
    (hna : s.activated = false → s.quiescent) (hob : obound s) :
    ∃ N, ∀ n, N ≤ n → (sIter dt n s).quiescent := by
  by_cases ha : s.activated = true
  · obtain ⟨k0, hk0⟩ := exists_nat_gt (s.delayLeft / dt)
    have hdl0 : s.delayLeft ≤ k0 * dt := by
      rw [div_lt_iff hdt] at hk0
      exact hk0.le
    obtain ⟨m1, hm1a, hm1d, hm1o, hm1v⟩ := springDrain dt hdt k0 s ha hdl0
    have hob1 : obound (sIter dt m1 s) := by
      simp only [obound] at hob ⊢
      rw [hm1o]
      exact hob
    obtain ⟨n1, hn1⟩ := exists_nat_gt ((vmaxA (sIter dt m1 s) - 14) / (7 * dt))
    have h7 : (0:ℚ) < 7 * dt := by linarith
    have hv1 : vmaxA (sIter dt m1 s) ≤ 14 + n1 * (7 * dt) := by
      rw [div_lt_iff h7] at hn1
      linarith
    rcases phaseB dt hdt hdt2 n1 (sIter dt m1 s) hm1a hm1d hob1 hv1 with
      hq2 | ⟨h2a, h2d, h2o, h2v⟩
    · refine ⟨m1 + n1, fun n hn => ?_⟩
      obtain ⟨p, rfl⟩ : ∃ p, n = m1 + n1 + p := ⟨n - (m1 + n1), by omega⟩
      rw [sIter_add, sIter_add, sIter_quiescent dt _ hq2]
      exact hq2
    · have hr0 : (0:ℚ) ≤ 1 - 8 * dt := by linarith
      have hr1 : 1 - 8 * dt < 1 := by linarith
      have hWnn : 0 ≤ lyapV dt (sIter dt n1 (sIter dt m1 s)).offset
          (sIter dt n1 (sIter dt m1 s)).velocity :=
        lyapV_nonneg dt _ _ hdt.le hdt2
      have hWp1 : (0:ℚ) < lyapV dt (sIter dt n1 (sIter dt m1 s)).offset
          (sIter dt n1 (sIter dt m1 s)).velocity + 1 := by linarith
      obtain ⟨n2, hn2⟩ := exists_pow_lt_of_lt_one
        (show (0:ℚ) < (1 / 80000) / (lyapV dt (sIter dt n1 (sIter dt m1 s)).offset
          (sIter dt n1 (sIter dt m1 s)).velocity + 1) by positivity) hr1
      refine ⟨m1 + n1 + (n2 + 1), fun n hn => ?_⟩
      obtain ⟨p, rfl⟩ : ∃ p, n = m1 + n1 + p := ⟨n - (m1 + n1), by omega⟩
      have hp2 : n2 + 1 ≤ p := by omega
      rw [sIter_add, sIter_add]
      rcases phaseC dt hdt hdt2 p (sIter dt n1 (sIter dt m1 s))
          h2a h2d h2o h2v with hq3 | ⟨-, -, -, -, h5, h6⟩
      · exact hq3
      · exfalso
        have hle : (1 - 8 * dt) ^ p ≤ (1 - 8 * dt) ^ n2 :=
          pow_le_pow_of_le_one hr0 hr1.le (by omega)
        have hWp := h6 (by omega)
        have hmul := (lt_div_iff hWp1).mp hn2
        have hstep1 := mul_le_mul_of_nonneg_right hle hWnn
        nlinarith [pow_nonneg hr0 n2, pow_nonneg hr0 p]
  · have hq := hna (by simpa using ha)
    exact ⟨0, fun n _ => by rw [sIter_quiescent dt s hq n]; exact hq⟩

theorem springs_settle_uniform (dt : ℚ) (hdt : 0 < dt) (hdt2 : dt ≤ 1 / 20) :
    ∀ (l : List SpringState),
    (∀ s ∈ l, (s.activated = false → s.quiescent) ∧ obound s) →
    ∃ N, ∀ s ∈ l, ∀ n, N ≤ n → (sIter dt n s).quiescent := by
  intro l
  induction l with
  | nil =>
    intro _
    exact ⟨0, by simp⟩
  | cons a l ih =>
    intro h
    obtain ⟨Na, hNa⟩ := spring_settles dt a hdt hdt2 (h a (by simp)).1 (h a (by simp)).2
    obtain ⟨Nl, hNl⟩ := ih (fun s hs => h s (by simp [hs]))
    refine ⟨max Na Nl, ?_⟩
    intro s hs n hn
    rcases List.mem_cons.mp hs with rfl | hs
    · exact hNa n (le_trans (le_max_left _ _) hn)
    · exact hNl s hs n (le_trans (le_max_right _ _) hn)

theorem jellyIter_succ (delta : ℚ) : ∀ (n : ℕ) (j : JellyEffect),
    jellyIter delta (n + 1) j = (jellyIter delta n j).update delta := by
  intro n
  induction n with
  | zero => intro j; rfl
  | succ n ih =>
    intro j
    show jellyIter delta (n + 1) (j.update delta) = _
    rw [ih (j.update delta)]
    rfl

theorem update_active (j : JellyEffect) (delta : ℚ) (ha : j.active = true) :
    j.update delta = ⟨j.springs.map (sStep (qmin delta (1 / 20))),
      (j.springs.map (stepSpring (qmin delta (1 / 20)))).any Prod.snd⟩ := by
  rw [JellyEffect.update, if_neg (by simp [ha])]
  show (⟨(j.springs.map (stepSpring (qmin delta (1 / 20)))).map Prod.fst,
      (j.springs.map (stepSpring (qmin delta (1 / 20)))).any Prod.snd⟩ : JellyEffect) = _
  rw [List.map_map]
  rfl

theorem update_inactive (j : JellyEffect) (delta : ℚ) (ha : j.active = false) :
    j.update delta = j := by
  rw [JellyEffect.update, if_pos ha]

theorem jelly_inv (j : JellyEffect) (delta : ℚ)
    (hq : ∀ s ∈ j.springs, s.activated = false → s.quiescent)
    (hact : j.active = false → ∀ s ∈ j.springs, s.activated = false) :
    ∀ n, ((jellyIter delta n j).active = true ∧
        (jellyIter delta n j).springs = j.springs.map (sIter (qmin delta (1 / 20)) n)) ∨
      ((jellyIter delta n j).active = false ∧
        ∀ s ∈ (jellyIter delta n j).springs, s.quiescent) := by
  intro n
  induction n with
  | zero =>
    cases hA : j.active
    · right
      exact ⟨hA, fun s hs => hq s hs (hact hA s hs)⟩
    · left
      refine ⟨hA, ?_⟩
      show j.springs = j.springs.map (sIter (qmin delta (1 / 20)) 0)
      rw [show sIter (qmin delta (1 / 20)) 0 = id from rfl, List.map_id]
  | succ n ih =>
    rw [jellyIter_succ delta n j]
    rcases ih with ⟨hA, hS⟩ | ⟨hA, hQ⟩
    · rw [update_active _ delta hA]
      cases hAny : ((jellyIter delta n j).springs.map
          (stepSpring (qmin delta (1 / 20)))).any Prod.snd
      · right
        refine ⟨rfl, ?_⟩
        show ∀ s ∈ (jellyIter delta n j).springs.map (sStep (qmin delta (1 / 20))),
          s.quiescent
        intro s' hs'
        simp only [List.mem_map] at hs'
        obtain ⟨t, ht, rfl⟩ := hs'
        have hnq : t.activated = false → t.quiescent := by
          rw [hS] at ht
          simp only [List.mem_map] at ht
          obtain ⟨t0, ht0, rfl⟩ := ht
          exact nonActQ_sIter _ t0 (hq t0 ht0) n
        have h2 : (stepSpring (qmin delta (1 / 20)) t).2 = false := by
          have hall := List.any_eq_false.mp hAny
          have := hall _ (List.mem_map.mpr ⟨t, ht, rfl⟩)
          simpa using this
        exact stepFalse_quiescent _ t hnq h2
      · left
        refine ⟨rfl, ?_⟩
        show (jellyIter delta n j).springs.map (sStep (qmin delta (1 / 20))) =
          j.springs.map (sIter (qmin delta (1 / 20)) (n + 1))
        rw [hS, List.map_map]
        apply List.map_congr_left
        intro a _
        exact (sIter_succ (qmin delta (1 / 20)) n a).symm
    · rw [update_inactive _ delta hA]
      right
      exact ⟨hA, hQ⟩

/-- C8: for every jelly state whose inactive springs are at rest and whose
offsets lie within the ±0.35 clamp range (as holds after any impulse
trigger of any intensity from rest), and every fixed positive frame delta,
iterating the update settles in a bounded number of steps: from some N on,
every spring has its offset and velocity snapped to zero and its bone
scale exactly (1,1,1), and the whole effect is inactive. -/
theorem C8_jelly_update_settles (j : JellyEffect) (delta : ℚ)
    (hdelta : 0 < delta)
    (hq : ∀ s ∈ j.springs, s.activated = false → s.quiescent)
    (hob : ∀ s ∈ j.springs, obound s)
    (hact : j.active = false → ∀ s ∈ j.springs, s.activated = false) :
    ∃ N, ∀ n, N ≤ n →
      (∀ s ∈ (jellyIter delta n j).springs, s.quiescent) ∧
      (jellyIter delta n j).active = false := by
  have hdt : 0 < qmin delta (1 / 20) := by
    rw [qmin]
    split
    · exact hdelta
    · norm_num
  have hdt2 : qmin delta (1 / 20) ≤ 1 / 20 := by
    rw [qmin]
    split
    · assumption
    · exact le_rfl
  obtain ⟨N, hN⟩ := springs_settle_uniform (qmin delta (1 / 20)) hdt hdt2 j.springs
    (fun s hs => ⟨hq s hs, hob s hs⟩)
  refine ⟨N + 1, fun n hn => ?_⟩
  obtain ⟨m, rfl⟩ : ∃ m, n = m + 1 := ⟨n - 1, by omega⟩
  have hm : N ≤ m := by omega
  rcases jelly_inv j delta hq hact m with ⟨hA, hS⟩ | ⟨hA, hQ⟩
  · have hallq : ∀ s ∈ (jellyIter delta m j).springs, s.quiescent := by
      intro s hs
      rw [hS] at hs
      simp only [List.mem_map] at hs
      obtain ⟨t0, ht0, rfl⟩ := hs
      exact hN t0 ht0 m hm
    rw [jellyIter_succ delta m j, update_active _ delta hA]
    constructor
    · show ∀ s ∈ (jellyIter delta m j).springs.map (sStep (qmin delta (1 / 20))),
        s.quiescent
      intro s' hs'
      simp only [List.mem_map] at hs'
      obtain ⟨t, ht, rfl⟩ := hs'
      rw [(sStep_quiescent _ t (hallq t ht)).1]
      exact hallq t ht
    · show ((jellyIter delta m j).springs.map
        (stepSpring (qmin delta (1 / 20)))).any Prod.snd = false
      rw [List.any_eq_false]
      intro x hx
      simp only [List.mem_map] at hx
      obtain ⟨t, ht, rfl⟩ := hx
      rw [(sStep_quiescent _ t (hallq t ht)).2]
      simp
  · rw [jellyIter_succ delta m j, update_inactive _ delta hA]
    exact ⟨hQ, hA⟩


theorem C8_jelly_update_settles_witness :
    ∃ N, ∀ n, N ≤ n →
      (∀ s ∈ (jellyIter (1 / 100) n
          (triggerImpulse (fun _ => Vec3.zero) headOnlyJelly "head" 1)).springs,
        s.quiescent) ∧
      (jellyIter (1 / 100) n
          (triggerImpulse (fun _ => Vec3.zero) headOnlyJelly "head" 1)).active = false :=
  C8_jelly_update_settles (triggerImpulse (fun _ => Vec3.zero) headOnlyJelly "head" 1)
    (1 / 100) (by norm_num)
    (by norm_num +decide [triggerImpulse, triggerWithWave, headOnlyJelly, BONE_CHAIN,
      JELLY_BONES, Vec3.zero, SpringState.quiescent])
    (by norm_num +decide [triggerImpulse, triggerWithWave, headOnlyJelly, BONE_CHAIN,
      JELLY_BONES, Vec3.zero, obound, qabs])
    (by norm_num +decide [triggerImpulse, triggerWithWave, headOnlyJelly, BONE_CHAIN,
      JELLY_BONES, Vec3.zero])
